import Mathlib

/-!
Shallow embedding of the slacker task-tracking core
(src/app/src/services/slack_service.rs, src/app/src/sockets/slack_bot.rs,
src/app/src/repos/*.rs, src/app/src/core/bot_status.rs), together with
proofs about the emoji status derivation, the reconciliation algorithm,
the synchronization passes and the workspace-link store.

Conventions of the embedding:
- database rows are kept in plain lists; sea-orm's `.one()` query is the
  first matching element (List.find?), `.insert` appends, `.update` by
  primary key maps over the list replacing the matching rows;
- uuids from generate_uuid are abstracted to a Nat counter (DbState.nextId);
  chrono timestamps are abstracted to a Nat clock supplied in the input;
- the store is modelled infallible except for RecordNotFound, which is an
  Option.none of the corresponding lookup: the Rust branches handling other
  database errors are unreachable in the model;
- network fetches (reactions.get) are inputs: an Option (List SlackReaction)
  where none is a failed fetch.
-/

namespace Slacker

/-- Task status. The stale model file src/app/src/models/task.rs lists only
InProgress/Blocked/Completed, but the compiled code manifestly also has a
Blank variant (used by slack_service.rs, slack_bot.rs, handlers/tasks.rs). -/
inductive TaskStatus where
  | Blank : TaskStatus
  | InProgress : TaskStatus
  | Blocked : TaskStatus
  | Completed : TaskStatus
deriving DecidableEq, Repr

/-- EmojiMappings from src/app/src/models/workspace_settings.rs. -/
structure EmojiMappings where
  in_progress : List String
  blocked : List String
  completed : List String
deriving DecidableEq, Repr

/-- EmojiMappings::default_mappings. -/
def EmojiMappings.default_mappings : EmojiMappings :=
  { in_progress := ["eyes"]
    blocked := ["arrows_counterclockwise", "loading", "hourglass"]
    completed := ["white_check_mark", "heavy_check_mark"] }

/-- SlackReaction from src/app/src/sockets/slack_bot.rs. -/
structure SlackReaction where
  name : String
  users : List String
  count : Int
deriving DecidableEq, Repr

/-- emoji_to_status from src/app/src/sockets/slack_bot.rs (lines 111-122). -/
def emoji_to_status (emoji : String) (mappings : EmojiMappings) : Option TaskStatus :=
  if emoji ∈ mappings.in_progress then some TaskStatus.InProgress
  else if emoji ∈ mappings.blocked then some TaskStatus.Blocked
  else if emoji ∈ mappings.completed then some TaskStatus.Completed
  else none

/-- map_reactions_to_status from src/app/src/sockets/slack_bot.rs
(lines 124-142): fold the reactions into a set of statuses, silently
ignoring unmapped emojis. -/
def map_reactions_to_status (reactions : List SlackReaction)
    (mappings : EmojiMappings) : Finset TaskStatus :=
  reactions.foldl
    (fun status_set reaction =>
      match emoji_to_status reaction.name mappings with
      | some status => insert status status_set
      | none => status_set)
    ∅

/-- eval_status_from_reactions from src/app/src/services/slack_service.rs. -/
def eval_status_from_reactions (statuses : Finset TaskStatus) : TaskStatus :=
  if TaskStatus.Completed ∈ statuses then TaskStatus.Completed
  else if TaskStatus.Blocked ∈ statuses then TaskStatus.Blocked
  else if TaskStatus.InProgress ∈ statuses then TaskStatus.InProgress
  else TaskStatus.Blank

/-- The fold in map_reactions_to_status collects exactly the mapped
categories, whatever the accumulator. -/
lemma mem_map_reactions_fold (R : List SlackReaction) (M : EmojiMappings)
    (acc : Finset TaskStatus) (c : TaskStatus) :
    c ∈ R.foldl
        (fun status_set reaction =>
          match emoji_to_status reaction.name M with
          | some status => insert status status_set
          | none => status_set)
        acc
      ↔ c ∈ acc ∨ ∃ r ∈ R, emoji_to_status r.name M = some c := by
  induction R generalizing acc with
  | nil => simp
  | cons r R ih =>
    simp only [List.foldl_cons, ih, List.mem_cons]
    cases h : emoji_to_status r.name M with
    | none =>
      constructor
      · rintro (hc | ⟨x, hx, hmap⟩)
        · exact Or.inl hc
        · exact Or.inr ⟨x, Or.inr hx, hmap⟩
      · rintro (hc | ⟨x, hx | hx, hmap⟩)
        · exact Or.inl hc
        · subst hx; rw [h] at hmap; exact absurd hmap (by simp)
        · exact Or.inr ⟨x, hx, hmap⟩
    | some s =>
      simp only [Finset.mem_insert]
      constructor
      · rintro ((hc | hc) | ⟨x, hx, hmap⟩)
        · exact Or.inr ⟨r, Or.inl rfl, by rw [h, hc]⟩
        · exact Or.inl hc
        · exact Or.inr ⟨x, Or.inr hx, hmap⟩
      · rintro (hc | ⟨x, hx | hx, hmap⟩)
        · exact Or.inl (Or.inr hc)
        · subst hx; rw [h] at hmap
          exact Or.inl (Or.inl (Option.some_injective _ hmap).symm)
        · exact Or.inr ⟨x, hx, hmap⟩

/-- Membership in the derived category set. -/
lemma mem_map_reactions_to_status (R : List SlackReaction) (M : EmojiMappings)
    (c : TaskStatus) :
    c ∈ map_reactions_to_status R M ↔ ∃ r ∈ R, emoji_to_status r.name M = some c := by
  rw [map_reactions_to_status, mem_map_reactions_fold]
  simp

/-- The category set depends only on which reaction names occur. -/
lemma map_reactions_to_status_congr (R₁ R₂ : List SlackReaction)
    (M : EmojiMappings)
    (h : ∀ n, (∃ r ∈ R₁, r.name = n) ↔ (∃ r ∈ R₂, r.name = n)) :
    map_reactions_to_status R₁ M = map_reactions_to_status R₂ M := by
  ext c
  rw [mem_map_reactions_to_status, mem_map_reactions_to_status]
  constructor
  · rintro ⟨r, hr, hmap⟩
    obtain ⟨r', hr', hname⟩ := (h r.name).mp ⟨r, hr, rfl⟩
    exact ⟨r', hr', by rw [hname, hmap]⟩
  · rintro ⟨r, hr, hmap⟩
    obtain ⟨r', hr', hname⟩ := (h r.name).mpr ⟨r, hr, rfl⟩
    exact ⟨r', hr', by rw [hname, hmap]⟩

/-- C1: the derived status is obtained by mapping each reaction name to its
category (unmapped names ignored), collecting the set of categories present,
and resolving by the precedence Completed > Blocked > InProgress; an empty
category set (R empty or all names unmapped) resolves to Blank; the result is
deterministic and independent of order and multiplicity of the reactions. -/
theorem C1_status_derivation :
    (∀ (R : List SlackReaction) (M : EmojiMappings) (c : TaskStatus),
        c ∈ map_reactions_to_status R M ↔ ∃ r ∈ R, emoji_to_status r.name M = some c)
    ∧ (∀ (R₁ R₂ : List SlackReaction) (M : EmojiMappings),
        (∀ n, (∃ r ∈ R₁, r.name = n) ↔ (∃ r ∈ R₂, r.name = n)) →
        eval_status_from_reactions (map_reactions_to_status R₁ M) =
          eval_status_from_reactions (map_reactions_to_status R₂ M))
    ∧ (∀ M : EmojiMappings,
        eval_status_from_reactions (map_reactions_to_status [] M) = TaskStatus.Blank)
    ∧ (∀ (R : List SlackReaction) (M : EmojiMappings),
        (∀ r ∈ R, emoji_to_status r.name M = none) →
        eval_status_from_reactions (map_reactions_to_status R M) = TaskStatus.Blank)
    ∧ (∀ S : Finset TaskStatus,
        (TaskStatus.Completed ∈ S →
          eval_status_from_reactions S = TaskStatus.Completed)
        ∧ (TaskStatus.Completed ∉ S → TaskStatus.Blocked ∈ S →
          eval_status_from_reactions S = TaskStatus.Blocked)
        ∧ (TaskStatus.Completed ∉ S → TaskStatus.Blocked ∉ S →
            TaskStatus.InProgress ∈ S →
          eval_status_from_reactions S = TaskStatus.InProgress)) := by
  refine ⟨mem_map_reactions_to_status, ?_, ?_, ?_, ?_⟩
  · intro R₁ R₂ M h
    rw [map_reactions_to_status_congr R₁ R₂ M h]
  · intro M
    rfl
  · intro R M h
    have hempty : map_reactions_to_status R M = ∅ := by
      ext c
      rw [mem_map_reactions_to_status]
      simp only [Finset.not_mem_empty, iff_false, not_exists]
      rintro r ⟨hr, hmap⟩
      rw [h r hr] at hmap
      exact Option.noConfusion hmap
    rw [hempty]
    rfl
  · intro S
    refine ⟨?_, ?_, ?_⟩ <;> intros <;> simp [eval_status_from_reactions, *]

/-- Witness for C1 at concrete inputs: the two default-mapped reactions
resolve identically in either order, and the empty list resolves to Blank. -/
theorem C1_status_derivation_witness :
    eval_status_from_reactions (map_reactions_to_status
        [⟨"hourglass", ["U1"], 1⟩, ⟨"white_check_mark", ["U2"], 1⟩]
        EmojiMappings.default_mappings) =
      eval_status_from_reactions (map_reactions_to_status
        [⟨"white_check_mark", ["U2"], 1⟩, ⟨"hourglass", ["U1"], 1⟩]
        EmojiMappings.default_mappings)
    ∧ eval_status_from_reactions
        (map_reactions_to_status [] EmojiMappings.default_mappings) =
      TaskStatus.Blank := by
  constructor
  · exact C1_status_derivation.2.1 _ _ EmojiMappings.default_mappings
      (by
        intro n
        constructor
        · rintro ⟨r, hr, rfl⟩
          simp only [List.mem_cons, List.not_mem_nil, or_false] at hr
          rcases hr with rfl | rfl
          · exact ⟨⟨"hourglass", ["U1"], 1⟩, by simp⟩
          · exact ⟨⟨"white_check_mark", ["U2"], 1⟩, by simp⟩
        · rintro ⟨r, hr, rfl⟩
          simp only [List.mem_cons, List.not_mem_nil, or_false] at hr
          rcases hr with rfl | rfl
          · exact ⟨⟨"white_check_mark", ["U2"], 1⟩, by simp⟩
          · exact ⟨⟨"hourglass", ["U1"], 1⟩, by simp⟩)
  · exact C1_status_derivation.2.2.1 EmojiMappings.default_mappings

/-! ## Data model (src/app/src/models, src/migration)

Rows are held in lists; `.one()` is List.find?, insert appends, update by
primary key maps over the list rewriting only the set columns. uuids are a
Nat counter, timestamps a Nat clock. -/

/-- Person row (src/app/src/models/person.rs). -/
structure Person where
  id : Nat
  name : String
  email : String
  is_me : Bool
  external_id : String
deriving DecidableEq, Repr

/-- WorkspaceLink row (src/app/src/models/workspace_link.rs). -/
structure WorkspaceLink where
  id : Nat
  person_id : Nat
  workspace_name : String
  slack_member_id : Option String
  is_linked : Bool
  is_active : Bool
  created_at : Nat
  updated_at : Option Nat
deriving DecidableEq, Repr

/-- Message row (src/app/src/models/message.rs is referenced throughout the
repos; fields reconstructed from MessagesRepo::create). -/
structure Message where
  id : Nat
  person_id : Nat
  content : String
  external_id : String
  channel : String
  timestamp : String
deriving DecidableEq, Repr

/-- Task row. The stale src/app/src/models/task.rs lacks assigned_by, but the
migration m20260109_000000_add_assigned_by and every caller
(TasksRepo::create, slack_bot.rs) carry a nullable assigned_by column. -/
structure Task where
  id : Nat
  status : TaskStatus
  assigned_to : Nat
  assigned_by : Option Nat
  created_at : Nat
  message_id : Nat
deriving DecidableEq, Repr

/-- The persistent store, plus the uuid source. -/
structure DbState where
  persons : List Person
  links : List WorkspaceLink
  messages : List Message
  tasks : List Task
  nextId : Nat
deriving DecidableEq, Repr

/-! ## Repositories (src/app/src/repos) -/

/-- PersonsRepo::get_by_external_id. -/
def PersonsRepo.get_by_external_id (s : DbState) (external_id : String) :
    Option Person :=
  s.persons.find? (fun p => p.external_id == external_id)

/-- WorkspaceLinksRepo::get_by_person_and_workspace. -/
def WorkspaceLinksRepo.get_by_person_and_workspace (s : DbState)
    (person_id : Nat) (workspace_name : String) : Option WorkspaceLink :=
  s.links.find? (fun l => l.person_id == person_id &&
    l.workspace_name == workspace_name)

/-- MessagesRepo::get_message_by_external_id. -/
def MessagesRepo.get_message_by_external_id (s : DbState)
    (external_id : String) : Option Message :=
  s.messages.find? (fun m => m.external_id == external_id)

/-- MessagesRepo::create: insert a fresh-id row. -/
def MessagesRepo.create (s : DbState) (content external_id channel
    timestamp : String) (person : Person) : Message × DbState :=
  let m : Message :=
    { id := s.nextId, person_id := person.id, content := content
      external_id := external_id, channel := channel, timestamp := timestamp }
  (m, { s with messages := s.messages ++ [m], nextId := s.nextId + 1 })

/-- MessagesRepo::get_all. -/
def MessagesRepo.get_all (s : DbState) : List Message := s.messages

/-- TasksRepo::get_task_by_message_id. -/
def TasksRepo.get_task_by_message_id (s : DbState) (message_id : Nat) :
    Option Task :=
  s.tasks.find? (fun t => t.message_id == message_id)

/-- TasksRepo::change_status: update by id, setting only the status column. -/
def TasksRepo.change_status (s : DbState) (task_id : Nat)
    (status : TaskStatus) : DbState :=
  { s with tasks := s.tasks.map (fun t =>
      if t.id == task_id then { t with status := status } else t) }

/-- Modelled from the spec: TasksRepo::change_assigned_by is invoked by the
reconciler (slack_bot.rs lines 691 and 1254) but missing from the checked-in
repos/tasks.rs; per spec section 4.2 it overwrites the stored owner, i.e. it
updates the task by id setting only the assigned_by column, the exact
analogue of change_status. -/
def TasksRepo.change_assigned_by (s : DbState) (task_id : Nat)
    (assigned_by : Option Nat) : DbState :=
  { s with tasks := s.tasks.map (fun t =>
      if t.id == task_id then { t with assigned_by := assigned_by } else t) }

/-- TasksRepo::create: insert a fresh-id row. -/
def TasksRepo.create (s : DbState) (status : TaskStatus)
    (assigned_to : Person) (assigned_by : Option Person) (created_at : Nat)
    (message : Message) : Task × DbState :=
  let t : Task :=
    { id := s.nextId, status := status, assigned_to := assigned_to.id
      assigned_by := assigned_by.map (fun p => p.id)
      created_at := created_at, message_id := message.id }
  (t, { s with tasks := s.tasks ++ [t], nextId := s.nextId + 1 })

/-! ## Reconciler (SlackBot::create_or_update_task, slack_bot.rs 539-722)

The gateway is an input: the authoritative reactions.get result is an
Option (List SlackReaction), none standing for a failed fetch. The store is
infallible except RecordNotFound, so the Rust branches propagating other
database errors are unreachable and every modelled path returns Ok. -/

/-- SlackMessage as fetched by SlackBot::fetch_message. -/
structure SlackMessage where
  text : String
  user : String
  ts : String
  thread_timestamp : Option String
deriving DecidableEq, Repr

/-- One write against the persistent store, for frame reasoning. -/
inductive WriteOp where
  | insertMessage : Nat → WriteOp
  | insertTask : Nat → WriteOp
  | writeStatus : Nat → TaskStatus → WriteOp
  | writeAssignedBy : Nat → Option Nat → WriteOp
deriving DecidableEq, Repr

/-- Everything create_or_update_task reads from outside the store. -/
structure ReconcileInput where
  workspace_name : String
  slack_message : SlackMessage
  channel : String
  message_timestamp : String
  reactor_slack_id : Option String
  trigger_reaction : Option String
  fetched_reactions : Option (List SlackReaction)
  emoji_mappings : EmojiMappings
  now : Nat
deriving DecidableEq, Repr

/-- Result state plus the store writes the call performed. -/
structure ReconcileOut where
  state : DbState
  writes : List WriteOp
deriving DecidableEq, Repr

/-- The message dedup key (slack_bot.rs line 603). -/
def message_external_id (channel timestamp : String) : String :=
  "slack:" ++ channel ++ ":" ++ timestamp

/-- Owner hinted by the event (slack_bot.rs 568-574): look up the reactor
carried by the event, if any. -/
def assigner_from_event (s : DbState) (inp : ReconcileInput) : Option Person :=
  match inp.reactor_slack_id with
  | some reactor_id => PersonsRepo.get_by_external_id s reactor_id
  | none => none

/-- Owner fallback (slack_bot.rs 666-669): the first reactor found in the
fetched reaction list, resolved to a person. -/
def assigner_from_reactions (s : DbState) (reactions : List SlackReaction) :
    Option Person :=
  match reactions.findSome? (fun r => r.users.head?) with
  | some slack_id => PersonsRepo.get_by_external_id s slack_id
  | none => none

/-- Status computation (slack_bot.rs 654-662): derive from the reaction list;
a Blank result falls back to the triggering emoji when one is mapped. -/
def computed_status (reactions : List SlackReaction)
    (trigger_reaction : Option String) (mappings : EmojiMappings) :
    TaskStatus :=
  let status := eval_status_from_reactions
    (map_reactions_to_status reactions mappings)
  if status = TaskStatus.Blank then
    match trigger_reaction with
    | some reaction_name =>
      match emoji_to_status reaction_name mappings with
      | some fallback_status => fallback_status
      | none => status
    | none => status
  else status

/-- Get-or-create of the Message by dedup key (slack_bot.rs 603-630); content
is captured only at creation. -/
def get_or_create_message (s : DbState) (assignee : Person)
    (text external_id channel timestamp : String) :
    Message × DbState × List WriteOp :=
  match MessagesRepo.get_message_by_external_id s external_id with
  | some msg => (msg, s, [])
  | none =>
    let created := MessagesRepo.create s text external_id channel timestamp
      assignee
    (created.1, created.2, [WriteOp.insertMessage created.1.id])

/-- Existing-task update (slack_bot.rs 674-697): status is written whenever
the guard passes (the reactions fetch succeeded or a trigger emoji exists),
assigned_by only when it differs from the resolved owner. -/
def update_existing_task (task : Task) (status : TaskStatus)
    (reactions_fetch_failed : Bool) (trigger_reaction : Option String)
    (effective_assigner_id : Option Nat) (s : DbState) (w : List WriteOp) :
    ReconcileOut :=
  let step1 : DbState × List WriteOp :=
    if ¬(reactions_fetch_failed = true ∧ trigger_reaction = none) then
      (TasksRepo.change_status s task.id status,
       w ++ [WriteOp.writeStatus task.id status])
    else (s, w)
  if task.assigned_by ≠ effective_assigner_id then
    { state := TasksRepo.change_assigned_by step1.1 task.id
        effective_assigner_id
      writes := step1.2 ++ [WriteOp.writeAssignedBy task.id
        effective_assigner_id] }
  else { state := step1.1, writes := step1.2 }

/-- Steps of create_or_update_task after author, link and message are
resolved (slack_bot.rs 636-721). -/
def reconcile_with_message (inp : ReconcileInput) (assignee : Person)
    (message : Message) (s : DbState) (w : List WriteOp) : ReconcileOut :=
  let reactions := inp.fetched_reactions.getD []
  let reactions_fetch_failed := inp.fetched_reactions.isNone
  let status := computed_status reactions inp.trigger_reaction
    inp.emoji_mappings
  let effective_assigner := (assigner_from_event s inp).or
    (assigner_from_reactions s reactions)
  let effective_assigner_id := effective_assigner.map (fun p => p.id)
  match TasksRepo.get_task_by_message_id s message.id with
  | some task =>
    update_existing_task task status reactions_fetch_failed
      inp.trigger_reaction effective_assigner_id s w
  | none =>
    if status = TaskStatus.Blank then { state := s, writes := w }
    else
      let created := TasksRepo.create s status assignee effective_assigner
        inp.now message
      { state := created.2, writes := w ++ [WriteOp.insertTask created.1.id] }

/-- SlackBot::create_or_update_task (slack_bot.rs 539-722). -/
def create_or_update_task (inp : ReconcileInput) (s : DbState) :
    ReconcileOut :=
  match PersonsRepo.get_by_external_id s inp.slack_message.user with
  | none => { state := s, writes := [] }
  | some assignee =>
    match WorkspaceLinksRepo.get_by_person_and_workspace s assignee.id
        inp.workspace_name with
    | some link =>
      if link.is_linked then
        let r := get_or_create_message s assignee inp.slack_message.text
          (message_external_id inp.channel inp.message_timestamp)
          inp.channel inp.message_timestamp
        reconcile_with_message inp assignee r.1 r.2.1 r.2.2
      else { state := s, writes := [] }
    | none => { state := s, writes := [] }

/-! ## Generic list helpers -/

/-- A map that fixes every element of the list is the identity on it. -/
lemma map_eq_self {α : Type} {l : List α} {f : α → α}
    (h : ∀ x ∈ l, f x = x) : l.map f = l := by
  induction l with
  | nil => rfl
  | cons a l ih =>
    simp only [List.map_cons]
    rw [h a (List.mem_cons_self a l), ih (fun x hx => h x (List.mem_cons_of_mem a hx))]

/-- find? commutes with a map that does not disturb the predicate. -/
lemma find?_map_of_pred_inv {α : Type} (l : List α) (g : α → α)
    (p : α → Bool) (hg : ∀ x, p (g x) = p x) :
    (l.map g).find? p = (l.find? p).map g := by
  have hpg : p ∘ g = p := funext hg
  rw [List.find?_map, hpg]

/-! ## Frame facts about the reconciler -/

/-- update_existing_task only rewrites tasks. -/
lemma update_existing_task_frame (task : Task) (status : TaskStatus)
    (rf : Bool) (tr : Option String) (eid : Option Nat) (s : DbState)
    (w : List WriteOp) :
    (update_existing_task task status rf tr eid s w).state.persons = s.persons
    ∧ (update_existing_task task status rf tr eid s w).state.links = s.links
    ∧ (update_existing_task task status rf tr eid s w).state.messages =
        s.messages
    ∧ (update_existing_task task status rf tr eid s w).state.nextId =
        s.nextId := by
  unfold update_existing_task TasksRepo.change_status
    TasksRepo.change_assigned_by
  split <;> split <;> simp

/-- reconcile_with_message only rewrites tasks and, on task creation, the
id counter; persons, links and messages pass through. -/
lemma reconcile_with_message_frame (inp : ReconcileInput) (assignee : Person)
    (message : Message) (s : DbState) (w : List WriteOp) :
    (reconcile_with_message inp assignee message s w).state.persons =
        s.persons
    ∧ (reconcile_with_message inp assignee message s w).state.links = s.links
    ∧ (reconcile_with_message inp assignee message s w).state.messages =
        s.messages := by
  unfold reconcile_with_message
  split
  · rename_i task _
    exact ⟨(update_existing_task_frame _ _ _ _ _ _ _).1,
      (update_existing_task_frame _ _ _ _ _ _ _).2.1,
      (update_existing_task_frame _ _ _ _ _ _ _).2.2.1⟩
  · dsimp only
    split
    · exact ⟨rfl, rfl, rfl⟩
    · exact ⟨rfl, rfl, rfl⟩

/-- Person lookups only read the persons table. -/
lemma get_by_external_id_congr {s₁ s₂ : DbState}
    (h : s₁.persons = s₂.persons) (e : String) :
    PersonsRepo.get_by_external_id s₁ e = PersonsRepo.get_by_external_id s₂ e := by
  simp [PersonsRepo.get_by_external_id, h]

/-- assigner_from_event only reads the persons table. -/
lemma assigner_from_event_congr {s₁ s₂ : DbState}
    (h : s₁.persons = s₂.persons) (inp : ReconcileInput) :
    assigner_from_event s₁ inp = assigner_from_event s₂ inp := by
  unfold assigner_from_event
  cases inp.reactor_slack_id with
  | none => rfl
  | some r => exact get_by_external_id_congr h r

/-- assigner_from_reactions only reads the persons table. -/
lemma assigner_from_reactions_congr {s₁ s₂ : DbState}
    (h : s₁.persons = s₂.persons) (reactions : List SlackReaction) :
    assigner_from_reactions s₁ reactions =
      assigner_from_reactions s₂ reactions := by
  unfold assigner_from_reactions
  cases reactions.findSome? (fun r => r.users.head?) with
  | none => rfl
  | some sid => exact get_by_external_id_congr h sid

/-- Writing a status every affected row already carries does not change the
store. -/
lemma change_status_eq_self {s : DbState} {tid : Nat} {st : TaskStatus}
    (h : ∀ t ∈ s.tasks, (t.id == tid) = true → t.status = st) :
    TasksRepo.change_status s tid st = s := by
  unfold TasksRepo.change_status
  have hmap : s.tasks.map
      (fun t => if t.id == tid then { t with status := st } else t) =
      s.tasks := by
    apply map_eq_self
    intro t htl
    by_cases hid : (t.id == tid) = true
    · rw [if_pos hid, ← h t htl hid]
    · rw [if_neg hid]
  rw [hmap]

/-- After an existing-task update, re-running the post-resolution steps of
the reconciler on the updated state changes nothing: the task found again is
the updated one, its status already matches the recomputed status whenever
the write guard passes, and its owner already matches the resolved owner. -/
lemma update_then_reconcile (inp : ReconcileInput) (assignee : Person)
    (m : Message) (s : DbState) (w2 : List WriteOp) (task : Task)
    (g : Task → Task) (S1 : DbState)
    (hpers : S1.persons = s.persons)
    (htasks : S1.tasks = s.tasks.map g)
    (hfind : s.tasks.find? (fun t => t.message_id == m.id) = some task)
    (hgid : ∀ t, (g t).id = t.id)
    (hgmsg : ∀ t, (g t).message_id = t.message_id)
    (hgstatus : ¬(inp.fetched_reactions.isNone = true ∧
        inp.trigger_reaction = none) →
      ∀ t ∈ s.tasks, (t.id == task.id) = true →
        (g t).status = computed_status (inp.fetched_reactions.getD [])
          inp.trigger_reaction inp.emoji_mappings)
    (hgassign : (g task).assigned_by =
      ((assigner_from_event s inp).or
        (assigner_from_reactions s (inp.fetched_reactions.getD []))).map
        (fun p => p.id)) :
    (reconcile_with_message inp assignee m S1 w2).state = S1 := by
  have hlook : TasksRepo.get_task_by_message_id S1 m.id = some (g task) := by
    unfold TasksRepo.get_task_by_message_id
    rw [htasks, find?_map_of_pred_inv _ g _ (fun t => by rw [hgmsg t]), hfind]
    rfl
  have heid : ((assigner_from_event S1 inp).or
      (assigner_from_reactions S1 (inp.fetched_reactions.getD []))).map
      (fun p => p.id) =
      ((assigner_from_event s inp).or
        (assigner_from_reactions s (inp.fetched_reactions.getD []))).map
        (fun p => p.id) := by
    rw [assigner_from_event_congr hpers, assigner_from_reactions_congr hpers]
  have h2 : reconcile_with_message inp assignee m S1 w2 =
      update_existing_task (g task)
        (computed_status (inp.fetched_reactions.getD []) inp.trigger_reaction
          inp.emoji_mappings)
        inp.fetched_reactions.isNone inp.trigger_reaction
        (((assigner_from_event s inp).or
          (assigner_from_reactions s (inp.fetched_reactions.getD []))).map
          (fun p => p.id)) S1 w2 := by
    simp only [reconcile_with_message]
    rw [hlook, heid]
  rw [h2]
  unfold update_existing_task
  dsimp only
  have hne : ¬((g task).assigned_by ≠
      ((assigner_from_event s inp).or
        (assigner_from_reactions s (inp.fetched_reactions.getD []))).map
        (fun p => p.id)) := by
    rw [hgassign]
    exact fun hcontra => hcontra rfl
  rw [if_neg hne]
  by_cases hA : inp.fetched_reactions.isNone = true ∧
      inp.trigger_reaction = none
  · rw [if_neg (not_not_intro hA)]
  · rw [if_pos hA]
    dsimp only
    rw [hgid task]
    exact change_status_eq_self (by
      intro t htS1 hid
      rw [htasks] at htS1
      obtain ⟨t0, ht0, rfl⟩ := List.mem_map.mp htS1
      have hid0 : (t0.id == task.id) = true := by rw [← hgid t0]; exact hid
      exact hgstatus hA t0 ht0 hid0)

/-- Re-running the post-resolution reconciliation steps for the same message
on the state they produced gives that state back unchanged. -/
lemma reconcile_with_message_idem (inp : ReconcileInput) (assignee : Person)
    (m : Message) (s : DbState) (w w2 : List WriteOp)
    (hWF : ∀ t ∈ s.tasks, t.id < s.nextId) :
    (reconcile_with_message inp assignee m
        (reconcile_with_message inp assignee m s w).state w2).state =
      (reconcile_with_message inp assignee m s w).state := by
  cases ht : TasksRepo.get_task_by_message_id s m.id with
  | some task =>
    have hfind : s.tasks.find? (fun t => t.message_id == m.id) = some task := ht
    have h1 : reconcile_with_message inp assignee m s w =
        update_existing_task task
          (computed_status (inp.fetched_reactions.getD [])
            inp.trigger_reaction inp.emoji_mappings)
          inp.fetched_reactions.isNone inp.trigger_reaction
          (((assigner_from_event s inp).or
            (assigner_from_reactions s (inp.fetched_reactions.getD []))).map
            (fun p => p.id)) s w := by
      simp only [reconcile_with_message]
      rw [ht]
    rw [h1]
    set st := computed_status (inp.fetched_reactions.getD [])
      inp.trigger_reaction inp.emoji_mappings with hst
    set eid := ((assigner_from_event s inp).or
      (assigner_from_reactions s (inp.fetched_reactions.getD []))).map
      (fun p => p.id) with heid
    set f1 : Task → Task := fun t =>
      if t.id == task.id then { t with status := st } else t with hf1
    set f2 : Task → Task := fun t =>
      if t.id == task.id then { t with assigned_by := eid } else t with hf2
    have hf1id : ∀ t, (f1 t).id = t.id := by
      intro t
      rw [hf1]
      dsimp only
      split <;> rfl
    have hf2id : ∀ t, (f2 t).id = t.id := by
      intro t
      rw [hf2]
      dsimp only
      split <;> rfl
    have hf1msg : ∀ t, (f1 t).message_id = t.message_id := by
      intro t
      rw [hf1]
      dsimp only
      split <;> rfl
    have hf2msg : ∀ t, (f2 t).message_id = t.message_id := by
      intro t
      rw [hf2]
      dsimp only
      split <;> rfl
    have hf2status : ∀ t, (f2 t).status = t.status := by
      intro t
      rw [hf2]
      dsimp only
      split <;> rfl
    have hf1assign : ∀ t, (f1 t).assigned_by = t.assigned_by := by
      intro t
      rw [hf1]
      dsimp only
      split <;> rfl
    have hf1status : ∀ t, (t.id == task.id) = true → (f1 t).status = st := by
      intro t hid
      rw [hf1]
      dsimp only
      rw [if_pos hid]
    have hf2assign : ∀ t, t.id = task.id → (f2 t).assigned_by = eid := by
      intro t htid
      rw [hf2]
      dsimp only
      rw [if_pos (by rw [htid, beq_self_eq_true])]
    by_cases hA : inp.fetched_reactions.isNone = true ∧
        inp.trigger_reaction = none
    · by_cases hB : task.assigned_by ≠ eid
      · -- fetch failed with no trigger, owner differs: only assigned_by moves
        have hS1 : (update_existing_task task st
            inp.fetched_reactions.isNone inp.trigger_reaction eid s w).state =
            { s with tasks := s.tasks.map f2 } := by
          unfold update_existing_task TasksRepo.change_assigned_by
          dsimp only
          rw [if_pos hB, if_neg (not_not_intro hA)]
        rw [hS1]
        apply update_then_reconcile inp assignee m s w2 task f2
        · rfl
        · rfl
        · exact hfind
        · exact hf2id
        · exact hf2msg
        · intro hA' _ _ _
          exact absurd hA hA'
        · rw [← heid]
          exact hf2assign task rfl
      · -- fetch failed with no trigger, owner unchanged: no write at all
        have hS1 : (update_existing_task task st
            inp.fetched_reactions.isNone inp.trigger_reaction eid s w).state =
            s := by
          unfold update_existing_task
          dsimp only
          rw [if_neg hB, if_neg (not_not_intro hA)]
        rw [hS1]
        apply update_then_reconcile inp assignee m s w2 task id
        · rfl
        · exact (List.map_id s.tasks).symm
        · exact hfind
        · intro t
          rfl
        · intro t
          rfl
        · intro hA' _ _ _
          exact absurd hA hA'
        · rw [← heid]
          exact not_ne_iff.mp hB
    · by_cases hB : task.assigned_by ≠ eid
      · -- status written, owner written
        have hS1 : (update_existing_task task st
            inp.fetched_reactions.isNone inp.trigger_reaction eid s w).state =
            { s with tasks := s.tasks.map (f2 ∘ f1) } := by
          unfold update_existing_task TasksRepo.change_status
            TasksRepo.change_assigned_by
          dsimp only
          rw [if_pos hB, if_pos hA]
          dsimp only
          rw [List.map_map]
        rw [hS1]
        apply update_then_reconcile inp assignee m s w2 task (f2 ∘ f1)
        · rfl
        · rfl
        · exact hfind
        · intro t
          rw [Function.comp_apply, hf2id, hf1id]
        · intro t
          rw [Function.comp_apply, hf2msg, hf1msg]
        · intro _ t _ hid
          rw [Function.comp_apply, hf2status, ← hst]
          exact hf1status t hid
        · rw [Function.comp_apply, ← heid]
          exact hf2assign (f1 task) (hf1id task)
      · -- status written, owner unchanged
        have hS1 : (update_existing_task task st
            inp.fetched_reactions.isNone inp.trigger_reaction eid s w).state =
            { s with tasks := s.tasks.map f1 } := by
          unfold update_existing_task TasksRepo.change_status
          dsimp only
          rw [if_neg hB, if_pos hA]
        rw [hS1]
        apply update_then_reconcile inp assignee m s w2 task f1
        · rfl
        · rfl
        · exact hfind
        · exact hf1id
        · exact hf1msg
        · intro _ t _ hid
          rw [← hst]
          exact hf1status t hid
        · rw [← heid, hf1assign task]
          exact not_ne_iff.mp hB
  | none =>
    have hfindnone : s.tasks.find? (fun t => t.message_id == m.id) = none := ht
    by_cases hblank : computed_status (inp.fetched_reactions.getD [])
        inp.trigger_reaction inp.emoji_mappings = TaskStatus.Blank
    · have h1 : reconcile_with_message inp assignee m s w =
          { state := s, writes := w } := by
        simp only [reconcile_with_message]
        rw [ht, if_pos hblank]
      rw [h1]
      simp only [reconcile_with_message]
      rw [ht, if_pos hblank]
    · have h1 : reconcile_with_message inp assignee m s w =
          { state := { s with
              tasks := s.tasks ++
                [{ id := s.nextId
                   status := computed_status (inp.fetched_reactions.getD [])
                     inp.trigger_reaction inp.emoji_mappings
                   assigned_to := assignee.id
                   assigned_by := ((assigner_from_event s inp).or
                     (assigner_from_reactions s
                       (inp.fetched_reactions.getD []))).map (fun p => p.id)
                   created_at := inp.now
                   message_id := m.id }]
              nextId := s.nextId + 1 }
            writes := w ++ [WriteOp.insertTask s.nextId] } := by
        simp only [reconcile_with_message, TasksRepo.create]
        rw [ht, if_neg hblank]
      rw [h1]
      dsimp only
      set t0 : Task :=
        { id := s.nextId
          status := computed_status (inp.fetched_reactions.getD [])
            inp.trigger_reaction inp.emoji_mappings
          assigned_to := assignee.id
          assigned_by := ((assigner_from_event s inp).or
            (assigner_from_reactions s (inp.fetched_reactions.getD []))).map
            (fun p => p.id)
          created_at := inp.now
          message_id := m.id } with ht0
      set S1 : DbState :=
        { s with tasks := s.tasks ++ [t0], nextId := s.nextId + 1 } with hS1def
      have hlook2 : TasksRepo.get_task_by_message_id S1 m.id = some t0 := by
        unfold TasksRepo.get_task_by_message_id
        rw [hS1def]
        dsimp only
        rw [List.find?_append, hfindnone]
        simp [ht0]
      have hpers : S1.persons = s.persons := rfl
      have heid2 : ((assigner_from_event S1 inp).or
          (assigner_from_reactions S1 (inp.fetched_reactions.getD []))).map
          (fun p => p.id) =
          ((assigner_from_event s inp).or
            (assigner_from_reactions s (inp.fetched_reactions.getD []))).map
            (fun p => p.id) := by
        rw [assigner_from_event_congr hpers,
          assigner_from_reactions_congr hpers]
      have h2 : reconcile_with_message inp assignee m S1 w2 =
          update_existing_task t0
            (computed_status (inp.fetched_reactions.getD [])
              inp.trigger_reaction inp.emoji_mappings)
            inp.fetched_reactions.isNone inp.trigger_reaction
            (((assigner_from_event s inp).or
              (assigner_from_reactions s
                (inp.fetched_reactions.getD []))).map (fun p => p.id))
            S1 w2 := by
        simp only [reconcile_with_message]
        rw [hlook2, heid2]
      rw [h2]
      unfold update_existing_task
      dsimp only
      have hne : ¬(t0.assigned_by ≠
          ((assigner_from_event s inp).or
            (assigner_from_reactions s (inp.fetched_reactions.getD []))).map
            (fun p => p.id)) := by
        rw [ht0]
        exact fun hcontra => hcontra rfl
      rw [if_neg hne]
      by_cases hA : inp.fetched_reactions.isNone = true ∧
          inp.trigger_reaction = none
      · rw [if_neg (not_not_intro hA)]
      · rw [if_pos hA]
        dsimp only
        apply change_status_eq_self
        intro t htS1 hid
        rw [hS1def] at htS1
        dsimp only at htS1
        rw [List.mem_append] at htS1
        cases htS1 with
        | inl htl =>
          exfalso
          have hlt : t.id < s.nextId := hWF t htl
          have heq : t.id = s.nextId := eq_of_beq hid
          omega
        | inr htr =>
          rw [List.mem_singleton] at htr
          rw [htr, ht0]

/-- Link lookups only read the links table. -/
lemma get_by_person_and_workspace_congr {s₁ s₂ : DbState}
    (h : s₁.links = s₂.links) (pid : Nat) (ws : String) :
    WorkspaceLinksRepo.get_by_person_and_workspace s₁ pid ws =
      WorkspaceLinksRepo.get_by_person_and_workspace s₂ pid ws := by
  simp [WorkspaceLinksRepo.get_by_person_and_workspace, h]

/-- Message lookups only read the messages table. -/
lemma get_message_by_external_id_congr {s₁ s₂ : DbState}
    (h : s₁.messages = s₂.messages) (e : String) :
    MessagesRepo.get_message_by_external_id s₁ e =
      MessagesRepo.get_message_by_external_id s₂ e := by
  simp [MessagesRepo.get_message_by_external_id, h]

/-- Rows reference ids below the id counter: the well-formedness every state
built through the repositories enjoys. -/
def StateWF (s : DbState) : Prop :=
  (∀ m ∈ s.messages, m.id < s.nextId) ∧
    ∀ t ∈ s.tasks, t.id < s.nextId ∧ t.message_id < s.nextId

instance : DecidablePred StateWF := fun s => by
  unfold StateWF
  infer_instance

/-- C2: replaying a reconciliation converges: the second run returns exactly
the state of the first (so it creates no Message row, no Task row, and leaves
every task status and assigned_by as they were), and the run preserves having
at most one Message row per dedup key. -/
theorem C2_reconcile_idempotent (inp : ReconcileInput) (s : DbState)
    (hWF : StateWF s) :
    (create_or_update_task inp
        (create_or_update_task inp s).state).state =
      (create_or_update_task inp s).state
    ∧ ∀ k : String,
        s.messages.countP (fun msg => msg.external_id == k) ≤ 1 →
        (create_or_update_task inp s).state.messages.countP
          (fun msg => msg.external_id == k) ≤ 1 := by
  cases hp : PersonsRepo.get_by_external_id s inp.slack_message.user with
  | none =>
    have h1 : create_or_update_task inp s = { state := s, writes := [] } := by
      unfold create_or_update_task
      rw [hp]
    rw [h1]
    exact ⟨by rw [h1], fun k hk => hk⟩
  | some assignee =>
    cases hl : WorkspaceLinksRepo.get_by_person_and_workspace s assignee.id
        inp.workspace_name with
    | none =>
      have h1 : create_or_update_task inp s = { state := s, writes := [] } := by
        unfold create_or_update_task
        rw [hp]
        dsimp only
        rw [hl]
      rw [h1]
      exact ⟨by rw [h1], fun k hk => hk⟩
    | some link =>
      cases hlk : link.is_linked with
      | false =>
        have h1 : create_or_update_task inp s =
            { state := s, writes := [] } := by
          unfold create_or_update_task
          rw [hp]
          dsimp only
          rw [hl]
          dsimp only
          rw [if_neg (by rw [hlk]; exact Bool.false_ne_true)]
        rw [h1]
        exact ⟨by rw [h1], fun k hk => hk⟩
      | true =>
        cases hm : MessagesRepo.get_message_by_external_id s
            (message_external_id inp.channel inp.message_timestamp) with
        | some mrow =>
          have hg : get_or_create_message s assignee inp.slack_message.text
              (message_external_id inp.channel inp.message_timestamp)
              inp.channel inp.message_timestamp = (mrow, s, []) := by
            unfold get_or_create_message
            rw [hm]
          have h1 : create_or_update_task inp s =
              reconcile_with_message inp assignee mrow s [] := by
            unfold create_or_update_task
            rw [hp]
            dsimp only
            rw [hl]
            dsimp only
            rw [if_pos hlk, hg]
          have hframe := reconcile_with_message_frame inp assignee mrow s []
          constructor
          · rw [h1]
            have hp2 : PersonsRepo.get_by_external_id
                (reconcile_with_message inp assignee mrow s []).state
                inp.slack_message.user = some assignee :=
              (get_by_external_id_congr hframe.1 _).trans hp
            have hl2 : WorkspaceLinksRepo.get_by_person_and_workspace
                (reconcile_with_message inp assignee mrow s []).state
                assignee.id inp.workspace_name = some link :=
              (get_by_person_and_workspace_congr hframe.2.1 _ _).trans hl
            have hm2 : MessagesRepo.get_message_by_external_id
                (reconcile_with_message inp assignee mrow s []).state
                (message_external_id inp.channel inp.message_timestamp) =
                some mrow :=
              (get_message_by_external_id_congr hframe.2.2 _).trans hm
            have hg2 : get_or_create_message
                (reconcile_with_message inp assignee mrow s []).state assignee
                inp.slack_message.text
                (message_external_id inp.channel inp.message_timestamp)
                inp.channel inp.message_timestamp =
                (mrow, (reconcile_with_message inp assignee mrow s []).state,
                  []) := by
              unfold get_or_create_message
              rw [hm2]
            have h2 : create_or_update_task inp
                (reconcile_with_message inp assignee mrow s []).state =
                reconcile_with_message inp assignee mrow
                  (reconcile_with_message inp assignee mrow s []).state [] := by
              unfold create_or_update_task
              rw [hp2]
              dsimp only
              rw [hl2]
              dsimp only
              rw [if_pos hlk, hg2]
            rw [h2]
            exact reconcile_with_message_idem inp assignee mrow s [] []
              (fun t htl => (hWF.2 t htl).1)
          · intro k hk
            rw [h1, hframe.2.2]
            exact hk
        | none =>
          have hg : get_or_create_message s assignee inp.slack_message.text
              (message_external_id inp.channel inp.message_timestamp)
              inp.channel inp.message_timestamp =
              (⟨s.nextId, assignee.id, inp.slack_message.text,
                 message_external_id inp.channel inp.message_timestamp,
                 inp.channel, inp.message_timestamp⟩,
               { s with
                 messages := s.messages ++
                   [⟨s.nextId, assignee.id, inp.slack_message.text,
                     message_external_id inp.channel inp.message_timestamp,
                     inp.channel, inp.message_timestamp⟩],
                 nextId := s.nextId + 1 },
               [WriteOp.insertMessage s.nextId]) := by
            unfold get_or_create_message MessagesRepo.create
            rw [hm]
          set m0 : Message :=
            ⟨s.nextId, assignee.id, inp.slack_message.text,
              message_external_id inp.channel inp.message_timestamp,
              inp.channel, inp.message_timestamp⟩ with hm0
          set s1 : DbState :=
            ⟨s.persons, s.links, s.messages ++ [m0], s.tasks,
              s.nextId + 1⟩ with hs1
          have h1 : create_or_update_task inp s =
              reconcile_with_message inp assignee m0 s1
                [WriteOp.insertMessage s.nextId] := by
            unfold create_or_update_task
            rw [hp]
            dsimp only
            rw [hl]
            dsimp only
            rw [if_pos hlk, hg]
          have hframe := reconcile_with_message_frame inp assignee m0 s1
            [WriteOp.insertMessage s.nextId]
          have hs1pers : s1.persons = s.persons := rfl
          have hs1links : s1.links = s.links := rfl
          constructor
          · rw [h1]
            have hp2 : PersonsRepo.get_by_external_id
                (reconcile_with_message inp assignee m0 s1
                  [WriteOp.insertMessage s.nextId]).state
                inp.slack_message.user = some assignee :=
              (get_by_external_id_congr (hframe.1.trans hs1pers) _).trans hp
            have hl2 : WorkspaceLinksRepo.get_by_person_and_workspace
                (reconcile_with_message inp assignee m0 s1
                  [WriteOp.insertMessage s.nextId]).state
                assignee.id inp.workspace_name = some link :=
              (get_by_person_and_workspace_congr
                (hframe.2.1.trans hs1links) _ _).trans hl
            have hm2 : MessagesRepo.get_message_by_external_id
                (reconcile_with_message inp assignee m0 s1
                  [WriteOp.insertMessage s.nextId]).state
                (message_external_id inp.channel inp.message_timestamp) =
                some m0 := by
              unfold MessagesRepo.get_message_by_external_id
              rw [hframe.2.2]
              show (s.messages ++ [m0]).find?
                (fun m => m.external_id ==
                  message_external_id inp.channel inp.message_timestamp) =
                some m0
              rw [List.find?_append]
              have hmnone : s.messages.find?
                  (fun m => m.external_id ==
                    message_external_id inp.channel inp.message_timestamp) =
                  none := hm
              rw [hmnone]
              simp [hm0]
            have hg2 : get_or_create_message
                (reconcile_with_message inp assignee m0 s1
                  [WriteOp.insertMessage s.nextId]).state assignee
                inp.slack_message.text
                (message_external_id inp.channel inp.message_timestamp)
                inp.channel inp.message_timestamp =
                (m0, (reconcile_with_message inp assignee m0 s1
                  [WriteOp.insertMessage s.nextId]).state, []) := by
              unfold get_or_create_message
              rw [hm2]
            have h2 : create_or_update_task inp
                (reconcile_with_message inp assignee m0 s1
                  [WriteOp.insertMessage s.nextId]).state =
                reconcile_with_message inp assignee m0
                  (reconcile_with_message inp assignee m0 s1
                    [WriteOp.insertMessage s.nextId]).state [] := by
              unfold create_or_update_task
              rw [hp2]
              dsimp only
              rw [hl2]
              dsimp only
              rw [if_pos hlk, hg2]
            rw [h2]
            exact reconcile_with_message_idem inp assignee m0 s1
              [WriteOp.insertMessage s.nextId] []
              (fun t htl => Nat.lt_succ_of_lt (hWF.2 t htl).1)
          · intro k hk
            rw [h1, hframe.2.2]
            show (s.messages ++ [m0]).countP
              (fun msg => msg.external_id == k) ≤ 1
            rw [List.countP_append]
            by_cases hq : (m0.external_id == k) = true
            · have hkeq : m0.external_id = k := eq_of_beq hq
              have hzero : s.messages.countP
                  (fun msg => msg.external_id == k) = 0 := by
                apply List.countP_eq_zero.mpr
                intro x hx
                have hnone := List.find?_eq_none.mp hm x hx
                rw [← hkeq]
                exact hnone
              rw [hzero]
              simp [List.countP_singleton, hq]
            · have hone : List.countP (fun msg => msg.external_id == k)
                  [m0] = 0 := by
                simp [List.countP_singleton, hq]
              rw [hone]
              omega

/-! ## Concrete fixtures used by witnesses -/

/-- A linked message author. -/
def sample_person : Person := ⟨1, "alice", "alice@example.com", false, "U_A"⟩

/-- A second person, used as reactor. -/
def sample_reactor : Person := ⟨2, "bob", "bob@example.com", false, "U_B"⟩

/-- The author's link to workspace acme. -/
def sample_link : WorkspaceLink := ⟨10, 1, "acme", some "U_A", true, true, 0, none⟩

/-- A captured message of the author. -/
def sample_message : Message := ⟨20, 1, "hello", "slack:C1:111.222", "C1", "111.222"⟩

/-- The task derived from the sample message. -/
def sample_task : Task := ⟨30, TaskStatus.InProgress, 1, some 2, 0, 20⟩

/-- A small well-formed store. -/
def sample_state : DbState :=
  ⟨[sample_person, sample_reactor], [sample_link], [sample_message],
    [sample_task], 40⟩

/-- A live reaction_added-style reconcile input against sample_state. -/
def sample_input : ReconcileInput :=
  { workspace_name := "acme"
    slack_message := ⟨"hello", "U_A", "111.222", none⟩
    channel := "C1"
    message_timestamp := "111.222"
    reactor_slack_id := some "U_B"
    trigger_reaction := some "eyes"
    fetched_reactions := some [⟨"eyes", ["U_B"], 1⟩]
    emoji_mappings := EmojiMappings.default_mappings
    now := 7 }

/-- Witness for C2 at the concrete sample: the state is well-formed, the
second run returns the first run's state, and the dedup bound holds. -/
theorem C2_reconcile_idempotent_witness :
    StateWF sample_state
    ∧ (create_or_update_task sample_input
        (create_or_update_task sample_input sample_state).state).state =
      (create_or_update_task sample_input sample_state).state
    ∧ (create_or_update_task sample_input sample_state).state.messages.countP
        (fun msg => msg.external_id == "slack:C1:111.222") ≤ 1 :=
  ⟨by decide,
   (C2_reconcile_idempotent sample_input sample_state (by decide)).1,
   (C2_reconcile_idempotent sample_input sample_state (by decide)).2
     "slack:C1:111.222" (by decide)⟩

/-- Under resolved author, link, message and task, the reconciler is exactly
the existing-task update step. -/
lemma create_or_update_reduce (inp : ReconcileInput) (s : DbState)
    (assignee : Person) (link : WorkspaceLink) (m : Message) (task : Task)
    (hp : PersonsRepo.get_by_external_id s inp.slack_message.user =
      some assignee)
    (hl : WorkspaceLinksRepo.get_by_person_and_workspace s assignee.id
      inp.workspace_name = some link)
    (hlk : link.is_linked = true)
    (hm : MessagesRepo.get_message_by_external_id s
      (message_external_id inp.channel inp.message_timestamp) = some m)
    (ht : TasksRepo.get_task_by_message_id s m.id = some task) :
    create_or_update_task inp s =
      update_existing_task task
        (computed_status (inp.fetched_reactions.getD [])
          inp.trigger_reaction inp.emoji_mappings)
        inp.fetched_reactions.isNone inp.trigger_reaction
        (((assigner_from_event s inp).or
          (assigner_from_reactions s (inp.fetched_reactions.getD []))).map
          (fun p => p.id)) s [] := by
  have hg : get_or_create_message s assignee inp.slack_message.text
      (message_external_id inp.channel inp.message_timestamp)
      inp.channel inp.message_timestamp = (m, s, []) := by
    unfold get_or_create_message
    rw [hm]
  unfold create_or_update_task
  rw [hp]
  dsimp only
  rw [hl]
  dsimp only
  rw [if_pos hlk, hg]
  simp only [reconcile_with_message]
  rw [ht]

/-- When the fetch failed and no trigger emoji exists, the update step leaves
every task status untouched (it may still move assigned_by). -/
lemma update_existing_task_statuses_skip (task : Task) (st : TaskStatus)
    (eid : Option Nat) (s : DbState) (w : List WriteOp) :
    (update_existing_task task st true none eid s w).state.tasks.map
      (fun t => t.status) = s.tasks.map (fun t => t.status) := by
  unfold update_existing_task TasksRepo.change_assigned_by
  dsimp only
  have hguard : ¬¬(true = true ∧ (none : Option String) = none) :=
    not_not_intro ⟨rfl, rfl⟩
  rw [if_neg hguard]
  by_cases hB : task.assigned_by ≠ eid
  · rw [if_pos hB]
    dsimp only
    rw [List.map_map]
    have hcomp : ((fun t => t.status) ∘ fun t =>
        if t.id == task.id then { t with assigned_by := eid } else t) =
        fun (t : Task) => t.status := by
      funext t
      dsimp only [Function.comp_apply]
      split <;> rfl
    rw [hcomp]
  · rw [if_neg hB]

/-- The task found after the update step: its owner is the resolved owner and
its status is the computed status whenever the write guard passed, otherwise
the old status. -/
lemma update_existing_task_find (task : Task) (st : TaskStatus) (rf : Bool)
    (tr : Option String) (eid : Option Nat) (s : DbState) (w : List WriteOp)
    (m : Message)
    (hfind : s.tasks.find? (fun t => t.message_id == m.id) = some task) :
    ∃ task', TasksRepo.get_task_by_message_id
        (update_existing_task task st rf tr eid s w).state m.id = some task'
      ∧ task'.assigned_by = eid
      ∧ task'.status =
          (if ¬(rf = true ∧ tr = none) then st else task.status) := by
  set f1 : Task → Task := fun t =>
    if t.id == task.id then { t with status := st } else t with hf1
  set f2 : Task → Task := fun t =>
    if t.id == task.id then { t with assigned_by := eid } else t with hf2
  have hb : (task.id == task.id) = true := beq_self_eq_true task.id
  have hf1id : ∀ t, (f1 t).id = t.id := by
    intro t
    rw [hf1]
    dsimp only
    split <;> rfl
  have hf1msg : ∀ t, (f1 t).message_id = t.message_id := by
    intro t
    rw [hf1]
    dsimp only
    split <;> rfl
  have hf2msg : ∀ t, (f2 t).message_id = t.message_id := by
    intro t
    rw [hf2]
    dsimp only
    split <;> rfl
  have hf1task : f1 task = { task with status := st } := by
    rw [hf1]
    dsimp only
    rw [if_pos hb]
  have hf2f1task : f2 (f1 task) =
      ⟨task.id, st, task.assigned_to, eid, task.created_at,
        task.message_id⟩ := by
    rw [hf2]
    dsimp only
    rw [if_pos (by rw [hf1id task]; exact hb), hf1task]
  have hf2task : f2 task = { task with assigned_by := eid } := by
    rw [hf2]
    dsimp only
    rw [if_pos hb]
  by_cases hA : ¬(rf = true ∧ tr = none)
  · by_cases hB : task.assigned_by ≠ eid
    · have hS : (update_existing_task task st rf tr eid s w).state =
          { s with tasks := s.tasks.map (f2 ∘ f1) } := by
        unfold update_existing_task TasksRepo.change_status
          TasksRepo.change_assigned_by
        dsimp only
        rw [if_pos hB, if_pos hA]
        dsimp only
        rw [List.map_map]
      refine ⟨f2 (f1 task), ?_, ?_, ?_⟩
      · unfold TasksRepo.get_task_by_message_id
        rw [hS]
        show (s.tasks.map (f2 ∘ f1)).find?
          (fun t => t.message_id == m.id) = some ((f2 ∘ f1) task)
        rw [find?_map_of_pred_inv _ _ _
          (fun t => by
            rw [Function.comp_apply, hf2msg, hf1msg]), hfind]
        rfl
      · rw [hf2f1task]
      · rw [hf2f1task, if_pos hA]
    · have hS : (update_existing_task task st rf tr eid s w).state =
          { s with tasks := s.tasks.map f1 } := by
        unfold update_existing_task TasksRepo.change_status
        dsimp only
        rw [if_neg hB, if_pos hA]
      refine ⟨f1 task, ?_, ?_, ?_⟩
      · unfold TasksRepo.get_task_by_message_id
        rw [hS]
        show (s.tasks.map f1).find?
          (fun t => t.message_id == m.id) = some (f1 task)
        rw [find?_map_of_pred_inv _ _ _ (fun t => by rw [hf1msg]), hfind]
        rfl
      · rw [hf1task]
        exact not_ne_iff.mp hB
      · rw [hf1task, if_pos hA]
  · by_cases hB : task.assigned_by ≠ eid
    · have hS : (update_existing_task task st rf tr eid s w).state =
          { s with tasks := s.tasks.map f2 } := by
        unfold update_existing_task TasksRepo.change_assigned_by
        dsimp only
        rw [if_pos hB, if_neg hA]
      refine ⟨f2 task, ?_, ?_, ?_⟩
      · unfold TasksRepo.get_task_by_message_id
        rw [hS]
        show (s.tasks.map f2).find?
          (fun t => t.message_id == m.id) = some (f2 task)
        rw [find?_map_of_pred_inv _ _ _ (fun t => by rw [hf2msg]), hfind]
        rfl
      · rw [hf2task]
      · rw [hf2task, if_neg hA]
    · have hS : (update_existing_task task st rf tr eid s w).state = s := by
        unfold update_existing_task
        dsimp only
        rw [if_neg hB, if_neg hA]
      refine ⟨task, ?_, not_ne_iff.mp hB, by rw [if_neg hA]⟩
      unfold TasksRepo.get_task_by_message_id
      rw [hS]
      exact hfind

/-- The writes the update step emits, by branch. -/
lemma update_existing_task_writes (task : Task) (st : TaskStatus) (rf : Bool)
    (tr : Option String) (eid : Option Nat) (s : DbState) (w : List WriteOp) :
    (update_existing_task task st rf tr eid s w).writes =
      w ++ (if ¬(rf = true ∧ tr = none)
              then [WriteOp.writeStatus task.id st] else [])
        ++ (if task.assigned_by ≠ eid
              then [WriteOp.writeAssignedBy task.id eid] else []) := by
  unfold update_existing_task
  dsimp only
  by_cases hA : ¬(rf = true ∧ tr = none) <;>
    by_cases hB : task.assigned_by ≠ eid <;>
    simp [hA, hB]

/-- An empty reaction list with a trigger emoji resolves to that emoji's
category, or Blank when the emoji is unmapped. -/
lemma computed_status_nil (e : String) (M : EmojiMappings) :
    computed_status [] (some e) M =
      (emoji_to_status e M).getD TaskStatus.Blank := by
  unfold computed_status
  have h0 : eval_status_from_reactions (map_reactions_to_status [] M) =
      TaskStatus.Blank := by
    simp [map_reactions_to_status, eval_status_from_reactions]
  dsimp only
  rw [h0, if_pos rfl]
  cases emoji_to_status e M <;> rfl

/-- C3: when the reaction fetch fails during live reconciliation of a message
that already has a Task, no trigger emoji means the stored status is not
written at all (never downgraded to Blank); a trigger emoji means the new
status is computed from that emoji as the sole signal. -/
theorem C3_fetch_failure_fallback (inp : ReconcileInput) (s : DbState)
    (assignee : Person) (link : WorkspaceLink) (m : Message) (task : Task)
    (hp : PersonsRepo.get_by_external_id s inp.slack_message.user =
      some assignee)
    (hl : WorkspaceLinksRepo.get_by_person_and_workspace s assignee.id
      inp.workspace_name = some link)
    (hlk : link.is_linked = true)
    (hm : MessagesRepo.get_message_by_external_id s
      (message_external_id inp.channel inp.message_timestamp) = some m)
    (ht : TasksRepo.get_task_by_message_id s m.id = some task)
    (hf : inp.fetched_reactions = none) :
    (inp.trigger_reaction = none →
      (create_or_update_task inp s).state.tasks.map (fun t => t.status) =
        s.tasks.map (fun t => t.status))
    ∧ ∀ e, inp.trigger_reaction = some e →
        (TasksRepo.get_task_by_message_id
          (create_or_update_task inp s).state m.id).map (fun t => t.status) =
        some ((emoji_to_status e inp.emoji_mappings).getD TaskStatus.Blank) := by
  rw [create_or_update_reduce inp s assignee link m task hp hl hlk hm ht]
  constructor
  · intro htr
    rw [hf, htr]
    simp only [Option.getD_none, Option.isNone_none]
    exact update_existing_task_statuses_skip task _ _ s []
  · intro e htr
    rw [hf, htr]
    simp only [Option.getD_none, Option.isNone_none]
    obtain ⟨task', hfound, _, hstatus⟩ :=
      update_existing_task_find task
        (computed_status [] (some e) inp.emoji_mappings) true (some e)
        (((assigner_from_event s inp).or
          (assigner_from_reactions s [])).map (fun p => p.id)) s [] m ht
    rw [hfound, Option.map_some']
    rw [if_pos (by rintro ⟨-, hcontra⟩; exact Option.noConfusion hcontra)]
      at hstatus
    rw [hstatus, computed_status_nil]

/-- sample_input with the reactions fetch failing. -/
def sample_input_failed_fetch : ReconcileInput :=
  { sample_input with fetched_reactions := none }

/-- sample_input with the reactions fetch failing and no trigger emoji. -/
def sample_input_failed_no_trigger : ReconcileInput :=
  { sample_input_failed_fetch with trigger_reaction := none }

/-- Witness for C3: concrete failed fetch; with no trigger the status stays,
with trigger eyes the status becomes InProgress. -/
theorem C3_fetch_failure_fallback_witness :
    ((create_or_update_task sample_input_failed_no_trigger
        sample_state).state.tasks.map (fun t => t.status) =
      sample_state.tasks.map (fun t => t.status))
    ∧ (TasksRepo.get_task_by_message_id
        (create_or_update_task sample_input_failed_fetch
          sample_state).state 20).map (fun t => t.status) =
      some ((emoji_to_status "eyes"
        EmojiMappings.default_mappings).getD TaskStatus.Blank) :=
  ⟨(C3_fetch_failure_fallback sample_input_failed_no_trigger
      sample_state sample_person sample_link sample_message sample_task
      (by decide) (by decide) (by decide) (by decide) (by decide) rfl).1 rfl,
   (C3_fetch_failure_fallback sample_input_failed_fetch
      sample_state sample_person sample_link sample_message sample_task
      (by decide) (by decide) (by decide) (by decide) (by decide) rfl).2
      "eyes" rfl⟩

/-! ## Historical sync (InitialSyncer, slack_bot.rs 864-1280) -/

/-- HistoryReaction from slack_bot.rs. -/
structure HistoryReaction where
  name : String
  users : Option (List String)
  count : Option Int
deriving DecidableEq, Repr

/-- HistoryMessage from slack_bot.rs. -/
structure HistoryMessage where
  user : Option String
  text : Option String
  ts : String
  reactions : Option (List HistoryReaction)
deriving DecidableEq, Repr

/-- Result of create_task_from_history: state, writes, and whether the call
returned Ok (false = an anyhow error was returned to the caller). -/
structure HistOut where
  state : DbState
  writes : List WriteOp
  ok : Bool
deriving DecidableEq, Repr

/-- The SlackReaction view of a history message's reactions
(slack_bot.rs 1220-1232). -/
def history_slack_reactions (msg : HistoryMessage) : List SlackReaction :=
  (msg.reactions.getD []).map
    (fun hr => ⟨hr.name, hr.users.getD [], hr.count.getD 0⟩)

/-- InitialSyncer::create_task_from_history (slack_bot.rs 1155-1279). The
store is infallible except RecordNotFound, so the modelled error returns are
exactly the missing-user, unknown-person and not-linked aborts. -/
def create_task_from_history (workspace_name : String) (msg : HistoryMessage)
    (channel_id : String) (emoji_mappings : EmojiMappings) (now : Nat)
    (s : DbState) : HistOut :=
  match msg.user with
  | none => ⟨s, [], false⟩
  | some user_id =>
    let text := msg.text.getD ""
    let ts := msg.ts
    match PersonsRepo.get_by_external_id s user_id with
    | none => ⟨s, [], false⟩
    | some person =>
      match WorkspaceLinksRepo.get_by_person_and_workspace s person.id
          workspace_name with
      | some link =>
        if link.is_linked then
          let r := get_or_create_message s person text
            (message_external_id channel_id ts) channel_id ts
          let reactions := history_slack_reactions msg
          let status := eval_status_from_reactions
            (map_reactions_to_status reactions emoji_mappings)
          if status = TaskStatus.Blank then ⟨r.2.1, r.2.2, true⟩
          else
            let assigner := assigner_from_reactions r.2.1 reactions
            let assigner_id := assigner.map (fun p => p.id)
            match TasksRepo.get_task_by_message_id r.2.1 r.1.id with
            | some task =>
              let step1 : DbState × List WriteOp :=
                if task.status ≠ status then
                  (TasksRepo.change_status r.2.1 task.id status,
                   r.2.2 ++ [WriteOp.writeStatus task.id status])
                else (r.2.1, r.2.2)
              if task.assigned_by ≠ assigner_id then
                ⟨TasksRepo.change_assigned_by step1.1 task.id assigner_id,
                 step1.2 ++ [WriteOp.writeAssignedBy task.id assigner_id],
                 true⟩
              else ⟨step1.1, step1.2, true⟩
            | none =>
              let created := TasksRepo.create r.2.1 status person assigner
                now r.1
              ⟨created.2, r.2.2 ++ [WriteOp.insertTask created.1.id], true⟩
        else ⟨s, [], false⟩
      | none => ⟨s, [], false⟩

/-! ## Periodic sync (SlackBot::run_periodic_sync, slack_bot.rs 754-792) -/

/-- What the periodic pass reads from outside the store: the per-message
reactions.get result (none = failed fetch, skipped with a warning) and the
emoji mappings snapshot. -/
structure PeriodicEnv where
  fetch_reactions : String → String → Option (List SlackReaction)
  emoji_mappings : EmojiMappings

/-- One iteration of the run_periodic_sync loop body: refetch reactions and
rewrite the task status; a fetch failure or a missing task skips the
message. -/
def periodic_step (env : PeriodicEnv) (acc : DbState × List WriteOp)
    (message : Message) : DbState × List WriteOp :=
  match env.fetch_reactions message.channel message.timestamp with
  | none => acc
  | some message_reactions =>
    let correct_status := eval_status_from_reactions
      (map_reactions_to_status message_reactions env.emoji_mappings)
    match TasksRepo.get_task_by_message_id acc.1 message.id with
    | none => acc
    | some mapped_task =>
      (TasksRepo.change_status acc.1 mapped_task.id correct_status,
       acc.2 ++ [WriteOp.writeStatus mapped_task.id correct_status])

/-- SlackBot::run_periodic_sync: the loop body applied over the message
snapshot taken at the start of the pass. -/
def run_periodic_sync (env : PeriodicEnv) (s : DbState) :
    DbState × List WriteOp :=
  (MessagesRepo.get_all s).foldl (periodic_step env) (s, [])

/-! ## Status registry (src/app/src/core/bot_status.rs) -/

/-- BotStatus (bot_status.rs). The two chrono timestamps are Nats here. -/
structure BotStatus where
  workspace_name : String
  is_connected : Bool
  connected_at : Option Nat
  last_heartbeat : Option Nat
  error_message : Option String
  is_syncing : Bool
  sync_progress : Option String
deriving DecidableEq, Repr

/-- BotStatusManager::set_syncing: only an existing entry is touched. -/
def set_syncing (statuses : List (String × BotStatus))
    (workspace_name : String) (progress : Option String) :
    List (String × BotStatus) :=
  statuses.map (fun e =>
    if e.1 == workspace_name
    then (e.1, { e.2 with is_syncing := true, sync_progress := progress })
    else e)

/-- BotStatusManager::set_sync_complete: only an existing entry is touched. -/
def set_sync_complete (statuses : List (String × BotStatus))
    (workspace_name : String) : List (String × BotStatus) :=
  statuses.map (fun e =>
    if e.1 == workspace_name
    then (e.1, { e.2 with is_syncing := false, sync_progress := none })
    else e)

/-- BotStatusManager::get_status. -/
def get_status (statuses : List (String × BotStatus))
    (workspace_name : String) : Option BotStatus :=
  (statuses.find? (fun e => e.1 == workspace_name)).map (fun e => e.2)

/-- SlackChannel from slack_bot.rs. -/
structure SlackChannel where
  id : String
  name : String
deriving DecidableEq, Repr

/-- The registry trajectory of InitialSyncer::perform_initial_sync
(slack_bot.rs 964-1059): mark syncing, and on channel-enumeration failure or
at the end of the scan mark sync complete; the boolean is the Ok/Err result.
The per-channel message scanning writes only to the store, never to the
registry, so it is not part of this registry-effect model. -/
def perform_initial_sync (workspace_name : String)
    (channels_result : Option (List SlackChannel))
    (statuses : List (String × BotStatus)) :
    List (String × BotStatus) × Bool :=
  let s1 := set_syncing statuses workspace_name
    (some "Fetching channels...")
  match channels_result with
  | none => (set_sync_complete s1 workspace_name, false)
  | some channels =>
    let s2 := channels.enum.foldl
      (fun acc ic =>
        set_syncing acc workspace_name
          (some ("Scanning channel " ++ toString (ic.1 + 1) ++ "/" ++
            toString channels.length ++ ": " ++ ic.2.name)))
      s1
    (set_sync_complete s2 workspace_name, true)

/-- The registry trajectory of
InitialSyncer::perform_initial_sync_for_all_users (slack_bot.rs 891-954):
links_result is the get_by_workspace query result (none = database error),
channels_for gives each member's channel enumeration result. -/
def perform_initial_sync_for_all_users (workspace_name : String)
    (links_result : Option (List WorkspaceLink))
    (channels_for : String → Option (List SlackChannel))
    (statuses : List (String × BotStatus)) : List (String × BotStatus) :=
  match links_result with
  | none => set_sync_complete statuses workspace_name
  | some links =>
    if links.isEmpty then set_sync_complete statuses workspace_name
    else links.foldl
      (fun acc link =>
        match link.slack_member_id with
        | none => acc
        | some mid =>
          let r := perform_initial_sync workspace_name (channels_for mid) acc
          if r.2 then r.1 else set_sync_complete r.1 workspace_name)
      statuses

/-- The workspace's registry entry, if any, reports not-syncing with cleared
progress. -/
def sync_cleared (statuses : List (String × BotStatus))
    (workspace_name : String) : Prop :=
  ∀ st ∈ get_status statuses workspace_name,
    st.is_syncing = false ∧ st.sync_progress = none

/-! ## WorkspaceLinksRepo write operations (src/app/src/repos/workspace_links.rs) -/

/-- WorkspaceLinksRepo::get_by_person. -/
def WorkspaceLinksRepo.get_by_person (s : DbState) (person_id : Nat) :
    List WorkspaceLink :=
  s.links.filter (fun l => l.person_id == person_id)

/-- A sea-orm ActiveModel update: rewrite the set columns of the row with the
given primary key. -/
def links_update_by_id (s : DbState) (link_id : Nat)
    (f : WorkspaceLink → WorkspaceLink) : DbState :=
  { s with links := s.links.map (fun l => if l.id == link_id then f l else l) }

/-- WorkspaceLinksRepo::create: a fresh unlinked, inactive row. -/
def WorkspaceLinksRepo.create (s : DbState) (person_id : Nat)
    (workspace_name : String) (now : Nat) : WorkspaceLink × DbState :=
  let link : WorkspaceLink :=
    ⟨s.nextId, person_id, workspace_name, none, false, false, now, none⟩
  (link, { s with links := s.links ++ [link], nextId := s.nextId + 1 })

/-- WorkspaceLinksRepo::link_workspace: update the existing (person,
workspace) row, or insert a new linked row, active only when it is the
person's first link. -/
def WorkspaceLinksRepo.link_workspace (s : DbState) (person_id : Nat)
    (workspace_name slack_member_id : String) (now : Nat) : DbState :=
  match WorkspaceLinksRepo.get_by_person_and_workspace s person_id
      workspace_name with
  | some link =>
    links_update_by_id s link.id (fun l =>
      { l with
        slack_member_id := some slack_member_id,
        is_linked := true,
        updated_at := some now })
  | none =>
    let is_first := (WorkspaceLinksRepo.get_by_person s person_id).isEmpty
    { s with
      links := s.links ++
        [⟨s.nextId, person_id, workspace_name, some slack_member_id, true,
          is_first, now, none⟩],
      nextId := s.nextId + 1 }

/-- WorkspaceLinksRepo::unlink_workspace: clear is_linked and the member id;
a missing row is an error, leaving the store unchanged. -/
def WorkspaceLinksRepo.unlink_workspace (s : DbState) (person_id : Nat)
    (workspace_name : String) (now : Nat) : DbState :=
  match WorkspaceLinksRepo.get_by_person_and_workspace s person_id
      workspace_name with
  | none => s
  | some link =>
    links_update_by_id s link.id (fun l =>
      { l with
        is_linked := false,
        slack_member_id := none,
        updated_at := some now })

/-- WorkspaceLinksRepo::delete (delete_by_id). -/
def WorkspaceLinksRepo.delete (s : DbState) (link_id : Nat) : DbState :=
  { s with links := s.links.filter (fun l => !(l.id == link_id)) }

/-- WorkspaceLinksRepo::set_active_workspace: deactivate every link of the
person one update at a time, then activate the (person, workspace) row,
re-read after the deactivation; a missing row leaves only the deactivation. -/
def WorkspaceLinksRepo.set_active_workspace (s : DbState) (person_id : Nat)
    (workspace_name : String) (now : Nat) : DbState :=
  let all_links := WorkspaceLinksRepo.get_by_person s person_id
  let s1 := all_links.foldl
    (fun acc link =>
      links_update_by_id acc link.id (fun l => { l with is_active := false }))
    s
  match WorkspaceLinksRepo.get_by_person_and_workspace s1 person_id
      workspace_name with
  | none => s1
  | some link =>
    links_update_by_id s1 link.id (fun l =>
      { l with is_active := true, updated_at := some now })

/-- The C9 invariant: every person has at most one active link. -/
def at_most_one_active (links : List WorkspaceLink) : Prop :=
  ∀ pid : Nat, links.countP (fun l => l.person_id == pid && l.is_active) ≤ 1

/-- C6: the credited actor stored by the reconciler is resolved by priority:
the event's actor when it resolves to a person, else the first reactor of the
fetched list, else none — both when updating an existing task and when
creating one; in particular a resolving hinted owner always wins. -/
theorem C6_owner_resolution (inp : ReconcileInput) (s : DbState)
    (assignee : Person) (link : WorkspaceLink) (m : Message)
    (hp : PersonsRepo.get_by_external_id s inp.slack_message.user =
      some assignee)
    (hl : WorkspaceLinksRepo.get_by_person_and_workspace s assignee.id
      inp.workspace_name = some link)
    (hlk : link.is_linked = true)
    (hm : MessagesRepo.get_message_by_external_id s
      (message_external_id inp.channel inp.message_timestamp) = some m) :
    (∀ task, TasksRepo.get_task_by_message_id s m.id = some task →
      (TasksRepo.get_task_by_message_id
        (create_or_update_task inp s).state m.id).map
        (fun t => t.assigned_by) =
      some (((assigner_from_event s inp).or
        (assigner_from_reactions s (inp.fetched_reactions.getD []))).map
        (fun p => p.id)))
    ∧ (∀ task r p, TasksRepo.get_task_by_message_id s m.id = some task →
        inp.reactor_slack_id = some r →
        PersonsRepo.get_by_external_id s r = some p →
        (TasksRepo.get_task_by_message_id
          (create_or_update_task inp s).state m.id).map
          (fun t => t.assigned_by) = some (some p.id))
    ∧ (TasksRepo.get_task_by_message_id s m.id = none →
        computed_status (inp.fetched_reactions.getD []) inp.trigger_reaction
          inp.emoji_mappings ≠ TaskStatus.Blank →
        (TasksRepo.get_task_by_message_id
          (create_or_update_task inp s).state m.id).map
          (fun t => t.assigned_by) =
        some (((assigner_from_event s inp).or
          (assigner_from_reactions s (inp.fetched_reactions.getD []))).map
          (fun p => p.id))) := by
  have hmain : ∀ task, TasksRepo.get_task_by_message_id s m.id = some task →
      (TasksRepo.get_task_by_message_id
        (create_or_update_task inp s).state m.id).map
        (fun t => t.assigned_by) =
      some (((assigner_from_event s inp).or
        (assigner_from_reactions s (inp.fetched_reactions.getD []))).map
        (fun p => p.id)) := by
    intro task ht
    rw [create_or_update_reduce inp s assignee link m task hp hl hlk hm ht]
    obtain ⟨task', hfound, hassign, _⟩ :=
      update_existing_task_find task
        (computed_status (inp.fetched_reactions.getD [])
          inp.trigger_reaction inp.emoji_mappings)
        inp.fetched_reactions.isNone inp.trigger_reaction
        (((assigner_from_event s inp).or
          (assigner_from_reactions s (inp.fetched_reactions.getD []))).map
          (fun p => p.id)) s [] m ht
    rw [hfound, Option.map_some', hassign]
  refine ⟨hmain, ?_, ?_⟩
  · intro task r p ht hr hpl
    have hev : assigner_from_event s inp = some p := by
      unfold assigner_from_event
      rw [hr]
      exact hpl
    have h1 := hmain task ht
    rw [hev] at h1
    exact h1.trans (by rfl)
  · intro htn hblank
    have hg : get_or_create_message s assignee inp.slack_message.text
        (message_external_id inp.channel inp.message_timestamp)
        inp.channel inp.message_timestamp = (m, s, []) := by
      unfold get_or_create_message
      rw [hm]
    have h1 : create_or_update_task inp s =
        reconcile_with_message inp assignee m s [] := by
      unfold create_or_update_task
      rw [hp]
      dsimp only
      rw [hl]
      dsimp only
      rw [if_pos hlk, hg]
    rw [h1]
    simp only [reconcile_with_message]
    rw [htn, if_neg hblank]
    simp only [TasksRepo.create]
    unfold TasksRepo.get_task_by_message_id
    show ((s.tasks ++
        [({ id := s.nextId
            status := computed_status (inp.fetched_reactions.getD [])
              inp.trigger_reaction inp.emoji_mappings
            assigned_to := assignee.id
            assigned_by := ((assigner_from_event s inp).or
              (assigner_from_reactions s
                (inp.fetched_reactions.getD []))).map (fun p => p.id)
            created_at := inp.now
            message_id := m.id } : Task)]).find?
        (fun t => t.message_id == m.id)).map (fun t => t.assigned_by) =
      some (((assigner_from_event s inp).or
        (assigner_from_reactions s (inp.fetched_reactions.getD []))).map
        (fun p => p.id))
    have htn' : s.tasks.find? (fun t => t.message_id == m.id) = none := htn
    rw [List.find?_append, htn']
    simp

/-- Witness for C6: the explicit reactor hint U_B resolves to person 2 and is
stored as the task's assigned_by. -/
theorem C6_owner_resolution_witness :
    (TasksRepo.get_task_by_message_id
      (create_or_update_task sample_input sample_state).state 20).map
      (fun t => t.assigned_by) = some (some 2) :=
  (C6_owner_resolution sample_input sample_state sample_person sample_link
      sample_message (by decide) (by decide) (by decide) (by decide)).2.1
    sample_task "U_B" sample_reactor (by decide) rfl (by decide)

/-- The message get-or-create step never touches tasks. -/
lemma get_or_create_message_tasks (s : DbState) (a : Person)
    (text e c ts : String) :
    (get_or_create_message s a text e c ts).2.1.tasks = s.tasks := by
  unfold get_or_create_message
  cases MessagesRepo.get_message_by_external_id s e with
  | some m => rfl
  | none => rfl

/-- C4: when no Task exists for the reconciled message and the computed
status is Blank, no Task row is created, in the live path and in the
historical-sync path alike. -/
theorem C4_no_blank_task (inp : ReconcileInput) (s : DbState) :
    (∀ (assignee : Person) (link : WorkspaceLink),
      PersonsRepo.get_by_external_id s inp.slack_message.user =
        some assignee →
      WorkspaceLinksRepo.get_by_person_and_workspace s assignee.id
        inp.workspace_name = some link →
      link.is_linked = true →
      TasksRepo.get_task_by_message_id
        (get_or_create_message s assignee inp.slack_message.text
          (message_external_id inp.channel inp.message_timestamp)
          inp.channel inp.message_timestamp).2.1
        (get_or_create_message s assignee inp.slack_message.text
          (message_external_id inp.channel inp.message_timestamp)
          inp.channel inp.message_timestamp).1.id = none →
      computed_status (inp.fetched_reactions.getD []) inp.trigger_reaction
        inp.emoji_mappings = TaskStatus.Blank →
      (create_or_update_task inp s).state.tasks = s.tasks)
    ∧ ∀ (workspace_name : String) (msg : HistoryMessage)
        (channel_id : String) (M : EmojiMappings) (now : Nat),
        eval_status_from_reactions
          (map_reactions_to_status (history_slack_reactions msg) M) =
          TaskStatus.Blank →
        (create_task_from_history workspace_name msg channel_id M now
          s).state.tasks = s.tasks := by
  constructor
  · intro assignee link hp hl hlk htn hblank
    unfold create_or_update_task
    rw [hp]
    dsimp only
    rw [hl]
    dsimp only
    rw [if_pos hlk]
    simp only [reconcile_with_message]
    rw [htn, if_pos hblank]
    exact get_or_create_message_tasks s assignee inp.slack_message.text
      (message_external_id inp.channel inp.message_timestamp)
      inp.channel inp.message_timestamp
  · intro workspace_name msg channel_id M now hblank
    unfold create_task_from_history
    cases hu : msg.user with
    | none => rfl
    | some user_id =>
      dsimp only
      cases hpl : PersonsRepo.get_by_external_id s user_id with
      | none => rfl
      | some person =>
        dsimp only
        cases hl : WorkspaceLinksRepo.get_by_person_and_workspace s
            person.id workspace_name with
        | none => rfl
        | some link =>
          dsimp only
          cases hlk : link.is_linked with
          | false =>
            rw [if_neg Bool.false_ne_true]
          | true =>
            rw [if_pos rfl]
            rw [if_pos hblank]
            exact get_or_create_message_tasks s person (msg.text.getD "")
              (message_external_id channel_id msg.ts) channel_id msg.ts

/-- Same input without the eyes reaction: everything unmapped, Blank. -/
def sample_input_blank : ReconcileInput :=
  { sample_input with fetched_reactions := some [], trigger_reaction := none }

/-- sample_state without the task row. -/
def sample_state_no_task : DbState :=
  ⟨[sample_person, sample_reactor], [sample_link], [sample_message], [], 40⟩

/-- A history message of the linked author with no mapped reaction. -/
def sample_history_message : HistoryMessage :=
  ⟨some "U_A", some "hello", "111.222", some [⟨"wave", some ["U_B"], some 1⟩]⟩

/-- Witness for C4: a Blank derivation creates no task on either path. -/
theorem C4_no_blank_task_witness :
    (create_or_update_task sample_input_blank
      sample_state_no_task).state.tasks = sample_state_no_task.tasks
    ∧ (create_task_from_history "acme" sample_history_message "C1"
        EmojiMappings.default_mappings 7
        sample_state_no_task).state.tasks = sample_state_no_task.tasks :=
  ⟨(C4_no_blank_task sample_input_blank sample_state_no_task).1
      sample_person sample_link (by decide) (by decide) (by decide)
      (by decide) (by decide),
   (C4_no_blank_task sample_input_blank sample_state_no_task).2
      "acme" sample_history_message "C1" EmojiMappings.default_mappings 7
      (by decide)⟩

/-- C7 counterexample: for an author whose member id resolves to no known
person, the historical-sync reconciliation does surface an error to its
caller (ok = false), contradicting the claim that no error is surfaced on
either path — though the store is indeed left unchanged. -/
theorem C7_counterexample :
    (create_task_from_history "acme"
      ⟨some "U_UNKNOWN", some "x", "9.9", some []⟩ "C1"
      EmojiMappings.default_mappings 0 sample_state).ok = false
    ∧ (create_task_from_history "acme"
        ⟨some "U_UNKNOWN", some "x", "9.9", some []⟩ "C1"
        EmojiMappings.default_mappings 0 sample_state).state =
      sample_state := by
  decide

/-- C7 amended: an unknown author or a missing/not-is_linked link makes
reconciliation leave the store unchanged with no writes on both paths; the
live path returns without error, while the historical-sync path returns an
error to its caller. -/
theorem C7_unknown_author_noop :
    (∀ (inp : ReconcileInput) (s : DbState),
      PersonsRepo.get_by_external_id s inp.slack_message.user = none →
      create_or_update_task inp s = ⟨s, []⟩)
    ∧ (∀ (inp : ReconcileInput) (s : DbState) (assignee : Person),
        PersonsRepo.get_by_external_id s inp.slack_message.user =
          some assignee →
        WorkspaceLinksRepo.get_by_person_and_workspace s assignee.id
          inp.workspace_name = none →
        create_or_update_task inp s = ⟨s, []⟩)
    ∧ (∀ (inp : ReconcileInput) (s : DbState) (assignee : Person)
        (link : WorkspaceLink),
        PersonsRepo.get_by_external_id s inp.slack_message.user =
          some assignee →
        WorkspaceLinksRepo.get_by_person_and_workspace s assignee.id
          inp.workspace_name = some link →
        link.is_linked = false →
        create_or_update_task inp s = ⟨s, []⟩)
    ∧ (∀ (ws : String) (msg : HistoryMessage) (ch : String)
        (M : EmojiMappings) (now : Nat) (s : DbState) (user_id : String),
        msg.user = some user_id →
        PersonsRepo.get_by_external_id s user_id = none →
        create_task_from_history ws msg ch M now s = ⟨s, [], false⟩)
    ∧ (∀ (ws : String) (msg : HistoryMessage) (ch : String)
        (M : EmojiMappings) (now : Nat) (s : DbState) (user_id : String)
        (person : Person),
        msg.user = some user_id →
        PersonsRepo.get_by_external_id s user_id = some person →
        WorkspaceLinksRepo.get_by_person_and_workspace s person.id ws =
          none →
        create_task_from_history ws msg ch M now s = ⟨s, [], false⟩)
    ∧ (∀ (ws : String) (msg : HistoryMessage) (ch : String)
        (M : EmojiMappings) (now : Nat) (s : DbState) (user_id : String)
        (person : Person) (link : WorkspaceLink),
        msg.user = some user_id →
        PersonsRepo.get_by_external_id s user_id = some person →
        WorkspaceLinksRepo.get_by_person_and_workspace s person.id ws =
          some link →
        link.is_linked = false →
        create_task_from_history ws msg ch M now s = ⟨s, [], false⟩) := by
  refine ⟨?_, ?_, ?_, ?_, ?_, ?_⟩
  · intro inp s hp
    unfold create_or_update_task
    rw [hp]
  · intro inp s assignee hp hl
    unfold create_or_update_task
    rw [hp]
    dsimp only
    rw [hl]
  · intro inp s assignee link hp hl hlk
    unfold create_or_update_task
    rw [hp]
    dsimp only
    rw [hl]
    dsimp only
    rw [if_neg (by rw [hlk]; exact Bool.false_ne_true)]
  · intro ws msg ch M now s user_id hu hp
    unfold create_task_from_history
    rw [hu]
    dsimp only
    rw [hp]
  · intro ws msg ch M now s user_id person hu hp hl
    unfold create_task_from_history
    rw [hu]
    dsimp only
    rw [hp]
    dsimp only
    rw [hl]
  · intro ws msg ch M now s user_id person link hu hp hl hlk
    unfold create_task_from_history
    rw [hu]
    dsimp only
    rw [hp]
    dsimp only
    rw [hl]
    dsimp only
    rw [if_neg (by rw [hlk]; exact Bool.false_ne_true)]

/-- An input from an author unknown to the store. -/
def sample_input_unknown_author : ReconcileInput :=
  { sample_input with slack_message := ⟨"hello", "U_NOBODY", "111.222", none⟩ }

/-- Witness for the amended C7 at concrete inputs: unknown author in the
live path, and not-linked author in the historical path. -/
theorem C7_unknown_author_noop_witness :
    create_or_update_task sample_input_unknown_author sample_state =
      ⟨sample_state, []⟩
    ∧ create_task_from_history "other-workspace" sample_history_message "C1"
        EmojiMappings.default_mappings 0 sample_state =
      ⟨sample_state, [], false⟩ :=
  ⟨C7_unknown_author_noop.1 sample_input_unknown_author sample_state
      (by decide),
   C7_unknown_author_noop.2.2.2.2.1 "other-workspace" sample_history_message
      "C1" EmojiMappings.default_mappings 0 sample_state "U_A" sample_person
      rfl (by decide) (by decide)⟩

/-- C5 counterexample: in the live path the stored status already equals the
computed status, yet a status write is still issued — refuting that status is
written only when it differs. -/
theorem C5_counterexample :
    (TasksRepo.get_task_by_message_id sample_state 20).map
      (fun t => t.status) =
      some (computed_status [⟨"eyes", ["U_B"], 1⟩] (some "eyes")
        EmojiMappings.default_mappings)
    ∧ WriteOp.writeStatus 30 TaskStatus.InProgress ∈
        (create_or_update_task sample_input sample_state).writes := by
  decide

/-- The writes of the message get-or-create step. -/
lemma get_or_create_message_writes (s : DbState) (a : Person)
    (text e c ts : String) :
    (get_or_create_message s a text e c ts).2.2 = [] ∨
      (get_or_create_message s a text e c ts).2.2 =
        [WriteOp.insertMessage s.nextId] := by
  unfold get_or_create_message
  cases MessagesRepo.get_message_by_external_id s e with
  | some m => exact Or.inl rfl
  | none => exact Or.inr rfl

/-- C5 amended: with an existing Task, the live path writes status whenever
the reactions fetch succeeded or a trigger emoji exists — even when the value
is unchanged — while the historical path writes status only when it differs;
both paths write assigned_by exactly when the resolved owner differs; the two
updates are decided independently. -/
theorem C5_update_guards :
    (∀ (inp : ReconcileInput) (s : DbState) (assignee : Person)
      (link : WorkspaceLink) (m : Message) (task : Task),
      PersonsRepo.get_by_external_id s inp.slack_message.user =
        some assignee →
      WorkspaceLinksRepo.get_by_person_and_workspace s assignee.id
        inp.workspace_name = some link →
      link.is_linked = true →
      MessagesRepo.get_message_by_external_id s
        (message_external_id inp.channel inp.message_timestamp) = some m →
      TasksRepo.get_task_by_message_id s m.id = some task →
      ((WriteOp.writeStatus task.id
          (computed_status (inp.fetched_reactions.getD [])
            inp.trigger_reaction inp.emoji_mappings) ∈
          (create_or_update_task inp s).writes
        ↔ ¬(inp.fetched_reactions = none ∧ inp.trigger_reaction = none))
      ∧ (WriteOp.writeAssignedBy task.id
          (((assigner_from_event s inp).or
            (assigner_from_reactions s (inp.fetched_reactions.getD []))).map
            (fun p => p.id)) ∈ (create_or_update_task inp s).writes
        ↔ task.assigned_by ≠
          ((assigner_from_event s inp).or
            (assigner_from_reactions s (inp.fetched_reactions.getD []))).map
            (fun p => p.id))))
    ∧ ∀ (ws : String) (msg : HistoryMessage) (ch : String)
        (M : EmojiMappings) (now : Nat) (s : DbState) (user_id : String)
        (person : Person) (link : WorkspaceLink) (task : Task),
        msg.user = some user_id →
        PersonsRepo.get_by_external_id s user_id = some person →
        WorkspaceLinksRepo.get_by_person_and_workspace s person.id ws =
          some link →
        link.is_linked = true →
        eval_status_from_reactions
          (map_reactions_to_status (history_slack_reactions msg) M) ≠
          TaskStatus.Blank →
        TasksRepo.get_task_by_message_id
          (get_or_create_message s person (msg.text.getD "")
            (message_external_id ch msg.ts) ch msg.ts).2.1
          (get_or_create_message s person (msg.text.getD "")
            (message_external_id ch msg.ts) ch msg.ts).1.id = some task →
        ((WriteOp.writeStatus task.id
            (eval_status_from_reactions
              (map_reactions_to_status (history_slack_reactions msg) M)) ∈
            (create_task_from_history ws msg ch M now s).writes
          ↔ task.status ≠
            eval_status_from_reactions
              (map_reactions_to_status (history_slack_reactions msg) M))
        ∧ (WriteOp.writeAssignedBy task.id
            ((assigner_from_reactions
              (get_or_create_message s person (msg.text.getD "")
                (message_external_id ch msg.ts) ch msg.ts).2.1
              (history_slack_reactions msg)).map (fun p => p.id)) ∈
            (create_task_from_history ws msg ch M now s).writes
          ↔ task.assigned_by ≠
            (assigner_from_reactions
              (get_or_create_message s person (msg.text.getD "")
                (message_external_id ch msg.ts) ch msg.ts).2.1
              (history_slack_reactions msg)).map (fun p => p.id))) := by
  constructor
  · intro inp s assignee link m task hp hl hlk hm ht
    rw [create_or_update_reduce inp s assignee link m task hp hl hlk hm ht,
      update_existing_task_writes]
    have hiff : (inp.fetched_reactions.isNone = true ∧
        inp.trigger_reaction = none) ↔
        (inp.fetched_reactions = none ∧ inp.trigger_reaction = none) := by
      rw [Option.isNone_iff_eq_none]
    constructor
    · by_cases hA : inp.fetched_reactions.isNone = true ∧
          inp.trigger_reaction = none
      · rw [if_neg (not_not_intro hA)]
        simp [hiff.mp hA]
      · rw [if_pos hA]
        by_cases hB : task.assigned_by ≠
            ((assigner_from_event s inp).or
              (assigner_from_reactions s
                (inp.fetched_reactions.getD []))).map (fun p => p.id) <;>
          simp [hB, hiff.not.mp hA]
    · by_cases hB : task.assigned_by ≠
          ((assigner_from_event s inp).or
            (assigner_from_reactions s
              (inp.fetched_reactions.getD []))).map (fun p => p.id)
      · rw [if_pos hB]
        by_cases hA : inp.fetched_reactions.isNone = true ∧
            inp.trigger_reaction = none <;>
          simp [hA, hB]
      · rw [if_neg hB]
        by_cases hA : inp.fetched_reactions.isNone = true ∧
            inp.trigger_reaction = none <;>
          simp [hA, hB]
  · intro ws msg ch M now s user_id person link task hu hpl hl hlk hblank ht
    unfold create_task_from_history
    rw [hu]
    dsimp only
    rw [hpl]
    dsimp only
    rw [hl]
    dsimp only
    rw [if_pos hlk]
    rw [if_neg hblank, ht]
    dsimp only
    have hw := get_or_create_message_writes s person (msg.text.getD "")
      (message_external_id ch msg.ts) ch msg.ts
    constructor
    · by_cases hS : task.status ≠ eval_status_from_reactions
          (map_reactions_to_status (history_slack_reactions msg) M)
      · rw [if_pos hS]
        by_cases hB : task.assigned_by ≠
            (assigner_from_reactions
              (get_or_create_message s person (msg.text.getD "")
                (message_external_id ch msg.ts) ch msg.ts).2.1
              (history_slack_reactions msg)).map (fun p => p.id) <;>
          rcases hw with hw | hw <;>
          simp [hB, hS, hw]
      · rw [if_neg hS]
        by_cases hB : task.assigned_by ≠
            (assigner_from_reactions
              (get_or_create_message s person (msg.text.getD "")
                (message_external_id ch msg.ts) ch msg.ts).2.1
              (history_slack_reactions msg)).map (fun p => p.id) <;>
          rcases hw with hw | hw <;>
          simp [hB, hS, hw]
    · by_cases hS : task.status ≠ eval_status_from_reactions
          (map_reactions_to_status (history_slack_reactions msg) M)
      · rw [if_pos hS]
        by_cases hB : task.assigned_by ≠
            (assigner_from_reactions
              (get_or_create_message s person (msg.text.getD "")
                (message_external_id ch msg.ts) ch msg.ts).2.1
              (history_slack_reactions msg)).map (fun p => p.id) <;>
          rcases hw with hw | hw <;>
          simp [hB, hS, hw]
      · rw [if_neg hS]
        by_cases hB : task.assigned_by ≠
            (assigner_from_reactions
              (get_or_create_message s person (msg.text.getD "")
                (message_external_id ch msg.ts) ch msg.ts).2.1
              (history_slack_reactions msg)).map (fun p => p.id) <;>
          rcases hw with hw | hw <;>
          simp [hB, hS, hw]

/-- Witness for the amended C5: at the sample input the guard passes, so the
status write is issued, and the owner already matches, so no owner write. -/
theorem C5_update_guards_witness :
    (WriteOp.writeStatus 30
      (computed_status [⟨"eyes", ["U_B"], 1⟩] (some "eyes")
        EmojiMappings.default_mappings) ∈
      (create_or_update_task sample_input sample_state).writes)
    ∧ ¬(WriteOp.writeAssignedBy 30 (some 2) ∈
        (create_or_update_task sample_input sample_state).writes) :=
  ⟨((C5_update_guards.1 sample_input sample_state sample_person sample_link
      sample_message sample_task (by decide) (by decide) (by decide)
      (by decide) (by decide)).1).mpr
      (by rintro ⟨hcontra, -⟩; exact Option.noConfusion hcontra),
   fun hmem =>
    absurd (((C5_update_guards.1 sample_input sample_state sample_person
        sample_link sample_message sample_task (by decide) (by decide)
        (by decide) (by decide) (by decide)).2).mp hmem) (by decide)⟩

/-- Every persistent Task field except status. -/
def task_frame (t : Task) : Nat × Nat × Option Nat × Nat × Nat :=
  (t.id, t.assigned_to, t.assigned_by, t.created_at, t.message_id)

/-- One periodic-sync iteration only rewrites task statuses. -/
lemma periodic_step_frame (env : PeriodicEnv) (acc : DbState × List WriteOp)
    (message : Message) :
    (periodic_step env acc message).1.persons = acc.1.persons
    ∧ (periodic_step env acc message).1.links = acc.1.links
    ∧ (periodic_step env acc message).1.messages = acc.1.messages
    ∧ (periodic_step env acc message).1.nextId = acc.1.nextId
    ∧ (periodic_step env acc message).1.tasks.map task_frame =
        acc.1.tasks.map task_frame := by
  unfold periodic_step
  cases env.fetch_reactions message.channel message.timestamp with
  | none => exact ⟨rfl, rfl, rfl, rfl, rfl⟩
  | some reactions =>
    dsimp only
    cases TasksRepo.get_task_by_message_id acc.1 message.id with
    | none => exact ⟨rfl, rfl, rfl, rfl, rfl⟩
    | some mapped_task =>
      dsimp only
      refine ⟨rfl, rfl, rfl, rfl, ?_⟩
      unfold TasksRepo.change_status
      dsimp only
      rw [List.map_map]
      have hcomp : ∀ st : TaskStatus, (task_frame ∘ fun t =>
          if t.id == mapped_task.id then { t with status := st } else t) =
          task_frame := by
        intro st
        funext t
        dsimp only [Function.comp_apply, task_frame]
        split <;> rfl
      rw [hcomp]

/-- The periodic fold keeps the frame of the accumulator. -/
lemma periodic_fold_frame (env : PeriodicEnv) :
    ∀ (msgs : List Message) (acc : DbState × List WriteOp),
    (msgs.foldl (periodic_step env) acc).1.persons = acc.1.persons
    ∧ (msgs.foldl (periodic_step env) acc).1.links = acc.1.links
    ∧ (msgs.foldl (periodic_step env) acc).1.messages = acc.1.messages
    ∧ (msgs.foldl (periodic_step env) acc).1.nextId = acc.1.nextId
    ∧ (msgs.foldl (periodic_step env) acc).1.tasks.map task_frame =
        acc.1.tasks.map task_frame := by
  intro msgs
  induction msgs with
  | nil => exact fun acc => ⟨rfl, rfl, rfl, rfl, rfl⟩
  | cons m rest ih =>
    intro acc
    rw [List.foldl_cons]
    obtain ⟨h1, h2, h3, h4, h5⟩ := ih (periodic_step env acc m)
    obtain ⟨g1, g2, g3, g4, g5⟩ := periodic_step_frame env acc m
    exact ⟨h1.trans g1, h2.trans g2, h3.trans g3, h4.trans g4, h5.trans g5⟩

/-- C10: the periodic pass writes only Task.status — persons, links,
messages, the id counter, and every other task field survive unchanged; when
every fetch fails, or no message has a task, the store is left entirely
untouched. -/
theorem C10_periodic_sync_frame (env : PeriodicEnv) (s : DbState) :
    ((run_periodic_sync env s).1.persons = s.persons
      ∧ (run_periodic_sync env s).1.links = s.links
      ∧ (run_periodic_sync env s).1.messages = s.messages
      ∧ (run_periodic_sync env s).1.nextId = s.nextId)
    ∧ (run_periodic_sync env s).1.tasks.map task_frame =
        s.tasks.map task_frame
    ∧ ((∀ m ∈ s.messages,
          env.fetch_reactions m.channel m.timestamp = none) →
        (run_periodic_sync env s).1 = s)
    ∧ ((∀ m ∈ s.messages, TasksRepo.get_task_by_message_id s m.id = none) →
        (run_periodic_sync env s).1 = s) := by
  refine ⟨⟨?_, ?_, ?_, ?_⟩, ?_, ?_, ?_⟩
  · exact (periodic_fold_frame env (MessagesRepo.get_all s) (s, [])).1
  · exact (periodic_fold_frame env (MessagesRepo.get_all s) (s, [])).2.1
  · exact (periodic_fold_frame env (MessagesRepo.get_all s) (s, [])).2.2.1
  · exact (periodic_fold_frame env (MessagesRepo.get_all s) (s, [])).2.2.2.1
  · exact (periodic_fold_frame env (MessagesRepo.get_all s) (s, [])).2.2.2.2
  · intro hfail
    have hfold : ∀ (msgs : List Message) (acc : DbState × List WriteOp),
        (∀ m ∈ msgs, env.fetch_reactions m.channel m.timestamp = none) →
        msgs.foldl (periodic_step env) acc = acc := by
      intro msgs
      induction msgs with
      | nil => exact fun acc _ => rfl
      | cons m rest ih =>
        intro acc hall
        rw [List.foldl_cons]
        have hstep : periodic_step env acc m = acc := by
          unfold periodic_step
          rw [hall m (List.mem_cons_self m rest)]
        rw [hstep]
        exact ih acc (fun x hx => hall x (List.mem_cons_of_mem m hx))
    show ((MessagesRepo.get_all s).foldl (periodic_step env) (s, [])).1 = s
    rw [hfold (MessagesRepo.get_all s) (s, []) hfail]
  · intro hnotask
    have hfold : ∀ (msgs : List Message) (w : List WriteOp),
        (∀ m ∈ msgs, TasksRepo.get_task_by_message_id s m.id = none) →
        msgs.foldl (periodic_step env) (s, w) = (s, w) := by
      intro msgs
      induction msgs with
      | nil => exact fun w _ => rfl
      | cons m rest ih =>
        intro w hall
        rw [List.foldl_cons]
        have hstep : periodic_step env (s, w) m = (s, w) := by
          unfold periodic_step
          cases env.fetch_reactions m.channel m.timestamp with
          | none => rfl
          | some reactions =>
            dsimp only
            rw [hall m (List.mem_cons_self m rest)]
        rw [hstep]
        exact ih w (fun x hx => hall x (List.mem_cons_of_mem m hx))
    show ((MessagesRepo.get_all s).foldl (periodic_step env) (s, [])).1 = s
    rw [hfold (MessagesRepo.get_all s) [] hnotask]

/-- A periodic environment whose every reactions.get fails. -/
def sample_env_failing : PeriodicEnv :=
  ⟨fun _ _ => none, EmojiMappings.default_mappings⟩

/-- Witness for C10: with every fetch failing, the pass leaves the sample
store untouched, and the frame equality holds. -/
theorem C10_periodic_sync_frame_witness :
    (run_periodic_sync sample_env_failing sample_state).1 = sample_state
    ∧ (run_periodic_sync sample_env_failing sample_state).1.tasks.map
        task_frame = sample_state.tasks.map task_frame :=
  ⟨(C10_periodic_sync_frame sample_env_failing sample_state).2.2.1
      (fun _ _ => rfl),
   (C10_periodic_sync_frame sample_env_failing sample_state).2.1⟩

/-- After set_sync_complete the workspace's entry reports not-syncing with
cleared progress. -/
lemma sync_cleared_set_sync_complete (statuses : List (String × BotStatus))
    (ws : String) : sync_cleared (set_sync_complete statuses ws) ws := by
  intro st hst
  unfold get_status set_sync_complete at hst
  rw [find?_map_of_pred_inv _ _ _ (fun e => by dsimp only; split <;> rfl)]
    at hst
  cases hfind : statuses.find? (fun e => e.1 == ws) with
  | none =>
    rw [hfind] at hst
    exact absurd hst (by simp)
  | some e =>
    have hpe : (e.1 == ws) = true :=
      List.find?_some (p := fun (e : String × BotStatus) => e.1 == ws) hfind
    rw [hfind] at hst
    simp only [Option.map_some'] at hst
    rw [if_pos hpe] at hst
    simp only [Option.mem_def, Option.some.injEq] at hst
    rw [← hst]
    exact ⟨rfl, rfl⟩

/-- perform_initial_sync always terminates with set_sync_complete, whether
the channel enumeration succeeded or failed. -/
lemma perform_initial_sync_cleared (ws : String)
    (channels_result : Option (List SlackChannel))
    (statuses : List (String × BotStatus)) :
    sync_cleared (perform_initial_sync ws channels_result statuses).1 ws := by
  unfold perform_initial_sync
  cases channels_result with
  | none => exact sync_cleared_set_sync_complete _ ws
  | some channels =>
    dsimp only
    exact sync_cleared_set_sync_complete _ ws

/-- C8: every terminating historical-sync pass — successful, failing to
enumerate channels, failing to enumerate links, or failing for an individual
user — leaves the workspace's registry entry cleared of syncing, provided
each fetched link carries a member id (which get_by_workspace guarantees,
since it returns only is_linked rows and linked rows always carry one). -/
theorem C8_sync_pass_clears_registry (workspace_name : String)
    (links_result : Option (List WorkspaceLink))
    (channels_for : String → Option (List SlackChannel))
    (statuses : List (String × BotStatus))
    (hlinks : ∀ links, links_result = some links →
      ∀ l ∈ links, l.slack_member_id ≠ none) :
    sync_cleared (perform_initial_sync_for_all_users workspace_name
      links_result channels_for statuses) workspace_name := by
  unfold perform_initial_sync_for_all_users
  cases hlr : links_result with
  | none => exact sync_cleared_set_sync_complete statuses workspace_name
  | some links =>
    dsimp only
    by_cases hempty : links.isEmpty = true
    · rw [if_pos hempty]
      exact sync_cleared_set_sync_complete statuses workspace_name
    · rw [if_neg hempty]
      have hmem : ∀ l ∈ links, l.slack_member_id ≠ none := hlinks links hlr
      have hne : links ≠ [] := by
        intro hcontra
        rw [hcontra] at hempty
        exact hempty rfl
      have hfold : ∀ (L : List WorkspaceLink)
          (acc : List (String × BotStatus)), L ≠ [] →
          (∀ l ∈ L, l.slack_member_id ≠ none) →
          sync_cleared
            (L.foldl (fun acc link =>
              match link.slack_member_id with
              | none => acc
              | some mid =>
                let r := perform_initial_sync workspace_name
                  (channels_for mid) acc
                if r.2 then r.1
                else set_sync_complete r.1 workspace_name) acc)
            workspace_name := by
        intro L
        induction L with
        | nil => exact fun acc h _ => absurd rfl h
        | cons l rest ih =>
          intro acc _ hall
          rw [List.foldl_cons]
          by_cases hrest : rest = []
          · subst hrest
            rw [List.foldl_nil]
            cases hmid : l.slack_member_id with
            | none => exact absurd hmid (hall l (List.mem_cons_self l []))
            | some mid =>
              dsimp only
              by_cases hok : (perform_initial_sync workspace_name
                  (channels_for mid) acc).2 = true
              · rw [if_pos hok]
                exact perform_initial_sync_cleared workspace_name
                  (channels_for mid) acc
              · rw [if_neg hok]
                exact sync_cleared_set_sync_complete _ workspace_name
          · exact ih _ hrest
              (fun x hx => hall x (List.mem_cons_of_mem l hx))
      exact hfold links statuses hne hmem

/-- A registry where acme is currently marked syncing. -/
def sample_registry : List (String × BotStatus) :=
  [("acme", ⟨"acme", true, some 0, some 0, none, true,
    some "Fetching channels..."⟩)]

/-- Witness for C8: a concrete pass over one linked member ends with the
acme entry cleared. -/
theorem C8_sync_pass_clears_registry_witness :
    sync_cleared (perform_initial_sync_for_all_users "acme"
      (some [sample_link]) (fun _ => some []) sample_registry) "acme" :=
  C8_sync_pass_clears_registry "acme" (some [sample_link])
    (fun _ => some []) sample_registry
    (by
      intro links heq l hl
      have h2 : links = [sample_link] := (Option.some.inj heq).symm
      subst h2
      rw [List.mem_singleton] at hl
      subst hl
      decide)

/-- countP is invariant under a map that does not disturb the predicate. -/
lemma countP_map_of_pred_inv {α : Type} (l : List α) (g : α → α)
    (p : α → Bool) (hg : ∀ x, p (g x) = p x) :
    (l.map g).countP p = l.countP p := by
  rw [List.countP_map]
  exact List.countP_congr (fun x _ => by
    rw [Function.comp_apply, hg x])

/-- The per-person activity predicate of the C9 invariant. -/
def active_for (pid : Nat) : WorkspaceLink → Bool :=
  fun l => l.person_id == pid && l.is_active

/-- A bounded, checkable form of the invariant implies it. -/
lemma at_most_one_active_of_mem (links : List WorkspaceLink)
    (h : ∀ l ∈ links, links.countP (active_for l.person_id) ≤ 1) :
    at_most_one_active links := by
  intro pid
  by_cases hex : ∃ l, l ∈ links ∧ (l.person_id == pid) = true
  · obtain ⟨l, hl, hpl⟩ := hex
    have hpid : l.person_id = pid := eq_of_beq hpl
    have hcount := h l hl
    unfold active_for at hcount
    simp only [hpid] at hcount
    exact hcount
  · have hzero : links.countP
        (fun l => l.person_id == pid && l.is_active) = 0 := by
      apply List.countP_eq_zero.mpr
      intro a ha hcon
      rw [Bool.and_eq_true] at hcon
      exact hex ⟨a, ha, hcon.1⟩
    rw [hzero]
    omega

/-- The invariant is stated with the same predicate as active_for. -/
lemma at_most_one_active_countP {links : List WorkspaceLink}
    (h : at_most_one_active links) (pid : Nat) :
    links.countP (active_for pid) ≤ 1 := h pid

/-- C9 for create: the inserted row is inactive. -/
lemma create_preserves_active (s : DbState) (pid : Nat) (ws : String)
    (now : Nat) (h : at_most_one_active s.links) :
    at_most_one_active (WorkspaceLinksRepo.create s pid ws now).2.links := by
  intro q
  unfold WorkspaceLinksRepo.create
  dsimp only
  rw [List.countP_append]
  have hnew : List.countP (fun l => l.person_id == q && l.is_active)
      [(⟨s.nextId, pid, ws, none, false, false, now, none⟩ :
        WorkspaceLink)] = 0 := by
    simp [List.countP_singleton]
  rw [hnew]
  have := h q
  omega

/-- C9 for unlink and the update branch of link: a column update not touching
person_id or is_active keeps every count. -/
lemma links_update_preserves_active (s : DbState) (lid : Nat)
    (f : WorkspaceLink → WorkspaceLink)
    (hfp : ∀ l, (f l).person_id = l.person_id)
    (hfa : ∀ l, (f l).is_active = l.is_active)
    (h : at_most_one_active s.links) :
    at_most_one_active (links_update_by_id s lid f).links := by
  intro q
  unfold links_update_by_id
  dsimp only
  rw [countP_map_of_pred_inv _ _ _ (fun x => by
    by_cases hid : (x.id == lid) = true
    · rw [if_pos hid]
      show ((f x).person_id == q && (f x).is_active) = _
      rw [hfp x, hfa x]
    · rw [if_neg hid])]
  exact h q

/-- C9 for link_workspace. -/
lemma link_workspace_preserves_active (s : DbState) (pid : Nat)
    (ws mid : String) (now : Nat) (h : at_most_one_active s.links) :
    at_most_one_active
      (WorkspaceLinksRepo.link_workspace s pid ws mid now).links := by
  unfold WorkspaceLinksRepo.link_workspace
  cases WorkspaceLinksRepo.get_by_person_and_workspace s pid ws with
  | some link =>
    dsimp only
    exact links_update_preserves_active s link.id _ (fun l => rfl)
      (fun l => rfl) h
  | none =>
    dsimp only
    intro q
    rw [List.countP_append]
    by_cases hfirst :
        (WorkspaceLinksRepo.get_by_person s pid).isEmpty = true
    · by_cases hq : (pid == q) = true
      · have hzero : s.links.countP
            (fun l => l.person_id == q && l.is_active) = 0 := by
          apply List.countP_eq_zero.mpr
          intro a ha hcon
          rw [Bool.and_eq_true] at hcon
          have haq : a.person_id = q := eq_of_beq hcon.1
          have hpq : pid = q := eq_of_beq hq
          have hmem2 : a ∈ s.links.filter (fun l => l.person_id == pid) := by
            rw [List.mem_filter]
            exact ⟨ha, by rw [haq, hpq]; exact beq_self_eq_true q⟩
          unfold WorkspaceLinksRepo.get_by_person at hfirst
          rw [List.isEmpty_iff] at hfirst
          rw [hfirst] at hmem2
          exact absurd hmem2 (List.not_mem_nil a)
        rw [hzero]
        have hone : List.countP (fun l => l.person_id == q && l.is_active)
            [(⟨s.nextId, pid, ws, some mid, true,
              (WorkspaceLinksRepo.get_by_person s pid).isEmpty, now,
              none⟩ : WorkspaceLink)] ≤ 1 := by
          rw [List.countP_singleton]
          split <;> omega
        omega
      · have hone : List.countP (fun l => l.person_id == q && l.is_active)
            [(⟨s.nextId, pid, ws, some mid, true,
              (WorkspaceLinksRepo.get_by_person s pid).isEmpty, now,
              none⟩ : WorkspaceLink)] = 0 := by
          rw [List.countP_singleton]
          rw [if_neg (by
            rw [Bool.and_eq_true]
            rintro ⟨hcon, -⟩
            exact hq hcon)]
        rw [hone]
        have := h q
        omega
    · have hone : List.countP (fun l => l.person_id == q && l.is_active)
          [(⟨s.nextId, pid, ws, some mid, true,
            (WorkspaceLinksRepo.get_by_person s pid).isEmpty, now,
            none⟩ : WorkspaceLink)] = 0 := by
        rw [List.countP_singleton]
        rw [if_neg (by
          rw [Bool.and_eq_true]
          rintro ⟨-, hcon⟩
          exact hfirst hcon)]
      rw [hone]
      have := h q
      omega

/-- C9 for delete: removing rows only lowers counts. -/
lemma delete_preserves_active (s : DbState) (lid : Nat)
    (h : at_most_one_active s.links) :
    at_most_one_active (WorkspaceLinksRepo.delete s lid).links := by
  intro q
  unfold WorkspaceLinksRepo.delete
  dsimp only
  calc (s.links.filter (fun l => !(l.id == lid))).countP
        (fun l => l.person_id == q && l.is_active)
      ≤ s.links.countP (fun l => l.person_id == q && l.is_active) :=
        List.Sublist.countP_le _ (List.filter_sublist s.links)
    _ ≤ 1 := h q

/-- The deactivation loop of set_active_workspace acts as a pointwise
transformation of the links table that preserves all key columns and never
turns a row active. -/
lemma deactivate_fold_links : ∀ (L : List WorkspaceLink) (s : DbState),
    ∃ G : WorkspaceLink → WorkspaceLink,
      (L.foldl (fun acc link => links_update_by_id acc link.id
        (fun l => { l with is_active := false })) s).links =
        s.links.map G
      ∧ (∀ l, (G l).id = l.id)
      ∧ (∀ l, (G l).person_id = l.person_id)
      ∧ (∀ l, (G l).workspace_name = l.workspace_name)
      ∧ (∀ l, (G l).is_active = true → l.is_active = true)
      ∧ (∀ l, (G l).slack_member_id = l.slack_member_id)
      ∧ (∀ l, (G l).is_linked = l.is_linked) := by
  intro L
  induction L with
  | nil =>
    intro s
    exact ⟨id, (List.map_id s.links).symm, fun l => rfl, fun l => rfl,
      fun l => rfl, fun l hl => hl, fun l => rfl, fun l => rfl⟩
  | cons a rest ih =>
    intro s
    rw [List.foldl_cons]
    obtain ⟨G', h1, h2, h3, h4, h5, h6, h7⟩ :=
      ih (links_update_by_id s a.id (fun l => { l with is_active := false }))
    refine ⟨G' ∘ (fun l =>
      if l.id == a.id then { l with is_active := false } else l),
      ?_, ?_, ?_, ?_, ?_, ?_, ?_⟩
    · rw [h1]
      show ((links_update_by_id s a.id
        (fun l => { l with is_active := false })).links).map G' = _
      unfold links_update_by_id
      dsimp only
      rw [List.map_map]
    · intro l
      rw [Function.comp_apply, h2]
      split <;> rfl
    · intro l
      rw [Function.comp_apply, h3]
      split <;> rfl
    · intro l
      rw [Function.comp_apply, h4]
      split <;> rfl
    · intro l hact
      rw [Function.comp_apply] at hact
      have hinner := h5 _ hact
      by_cases hid : (l.id == a.id) = true
      · rw [if_pos hid] at hinner
        exact absurd hinner (by simp)
      · rw [if_neg hid] at hinner
        exact hinner
    · intro l
      rw [Function.comp_apply, h6]
      split <;> rfl
    · intro l
      rw [Function.comp_apply, h7]
      split <;> rfl

/-- After the deactivation loop, every row carrying the id of a processed
link is inactive. -/
lemma deactivate_fold_inactive : ∀ (L : List WorkspaceLink) (s : DbState)
    (l0 : WorkspaceLink), l0 ∈ L →
    ∀ r ∈ (L.foldl (fun acc link => links_update_by_id acc link.id
        (fun l => { l with is_active := false })) s).links,
      (r.id == l0.id) = true → r.is_active = false := by
  intro L
  induction L with
  | nil =>
    intro s l0 hl0
    exact absurd hl0 (List.not_mem_nil l0)
  | cons a rest ih =>
    intro s l0 hl0 r hr hid
    rw [List.foldl_cons] at hr
    rcases List.mem_cons.mp hl0 with rfl | hl0rest
    · obtain ⟨G', h1, h2, h3, h4, h5, h6, h7⟩ := deactivate_fold_links rest
        (links_update_by_id s l0.id (fun l => { l with is_active := false }))
      rw [h1] at hr
      obtain ⟨r1, hr1, rfl⟩ := List.mem_map.mp hr
      have hr1' : r1 ∈ s.links.map (fun l =>
          if l.id == l0.id then { l with is_active := false } else l) := hr1
      obtain ⟨r0, hr0, rfl⟩ := List.mem_map.mp hr1'
      have hga : ((fun l => if l.id == l0.id
          then { l with is_active := false } else l) r0).id = r0.id := by
        dsimp only
        split <;> rfl
      rw [h2, hga] at hid
      have hinner : ((fun l => if l.id == l0.id
          then { l with is_active := false } else l) r0).is_active =
          false := by
        dsimp only
        rw [if_pos hid]
      cases hb : (G' ((fun l => if l.id == l0.id
          then { l with is_active := false } else l) r0)).is_active with
      | false => rfl
      | true =>
        have := h5 _ hb
        rw [hinner] at this
        exact absurd this (by simp)
    · exact ih (links_update_by_id s a.id
        (fun l => { l with is_active := false })) l0 hl0rest r hr hid

/-- With pairwise-distinct ids, at most one row matches a given id. -/
lemma countP_id_le_one {links : List WorkspaceLink}
    (hnd : (links.map (fun l => l.id)).Nodup) (n : Nat) :
    links.countP (fun l => l.id == n) ≤ 1 := by
  induction links with
  | nil => simp
  | cons a rest ih =>
    rw [List.map_cons, List.nodup_cons] at hnd
    by_cases ha : (a.id == n) = true
    · rw [List.countP_cons_of_pos (p := fun l => l.id == n) rest ha]
      have hzero : rest.countP (fun l => l.id == n) = 0 := by
        apply List.countP_eq_zero.mpr
        intro x hx hcon
        have hxn : x.id = n := eq_of_beq hcon
        have han : a.id = n := eq_of_beq ha
        exact hnd.1 (by rw [han, ← hxn]; exact List.mem_map_of_mem _ hx)
      omega
    · rw [List.countP_cons_of_neg (p := fun l => l.id == n) rest ha]
      exact ih hnd.2

/-- C9 for set_active_workspace: the loop deactivates all of the person's
links, then exactly the one re-found row is activated. -/
lemma set_active_preserves_active (s : DbState) (pid : Nat) (ws : String)
    (now : Nat) (hnd : (s.links.map (fun l => l.id)).Nodup)
    (h : at_most_one_active s.links) :
    at_most_one_active
      (WorkspaceLinksRepo.set_active_workspace s pid ws now).links := by
  unfold WorkspaceLinksRepo.set_active_workspace
  dsimp only
  obtain ⟨G, hG1, hGid, hGpid, hGws, hGact, hGmid, hGlk⟩ :=
    deactivate_fold_links (WorkspaceLinksRepo.get_by_person s pid) s
  have hmono : ∀ q : Nat,
      ((WorkspaceLinksRepo.get_by_person s pid).foldl
        (fun acc link => links_update_by_id acc link.id
          (fun l => { l with is_active := false })) s).links.countP
        (fun l => l.person_id == q && l.is_active) ≤
      s.links.countP (fun l => l.person_id == q && l.is_active) := by
    intro q
    rw [hG1, List.countP_map]
    apply List.countP_mono_left
    intro x _ hpx
    rw [Function.comp_apply, Bool.and_eq_true] at hpx
    rw [Bool.and_eq_true]
    rw [hGpid x] at hpx
    exact ⟨hpx.1, hGact x hpx.2⟩
  have hzero : ((WorkspaceLinksRepo.get_by_person s pid).foldl
      (fun acc link => links_update_by_id acc link.id
        (fun l => { l with is_active := false })) s).links.countP
      (fun l => l.person_id == pid && l.is_active) = 0 := by
    apply List.countP_eq_zero.mpr
    intro r hr hcon
    rw [Bool.and_eq_true] at hcon
    have hrG := hr
    rw [hG1] at hrG
    obtain ⟨r0, hr0, rfl⟩ := List.mem_map.mp hrG
    have hr0pid : (r0.person_id == pid) = true := by
      rw [← hGpid r0]
      exact hcon.1
    have hr0mem : r0 ∈ WorkspaceLinksRepo.get_by_person s pid := by
      unfold WorkspaceLinksRepo.get_by_person
      rw [List.mem_filter]
      exact ⟨hr0, hr0pid⟩
    have hinact := deactivate_fold_inactive
      (WorkspaceLinksRepo.get_by_person s pid) s r0 hr0mem (G r0) hr
      (by rw [hGid r0]; exact beq_self_eq_true r0.id)
    rw [hinact] at hcon
    exact absurd hcon.2 (by simp)
  have hids : (((WorkspaceLinksRepo.get_by_person s pid).foldl
      (fun acc link => links_update_by_id acc link.id
        (fun l => { l with is_active := false })) s).links.map
      (fun l => l.id)) = s.links.map (fun l => l.id) := by
    rw [hG1, List.map_map]
    have : ((fun l => l.id) ∘ G) = fun (l : WorkspaceLink) => l.id :=
      funext hGid
    rw [this]
  cases hfind : WorkspaceLinksRepo.get_by_person_and_workspace
      ((WorkspaceLinksRepo.get_by_person s pid).foldl
        (fun acc link => links_update_by_id acc link.id
          (fun l => { l with is_active := false })) s) pid ws with
  | none =>
    intro q
    exact le_trans (hmono q) (h q)
  | some link2 =>
    dsimp only
    have hlmem : link2 ∈ ((WorkspaceLinksRepo.get_by_person s pid).foldl
        (fun acc link => links_update_by_id acc link.id
          (fun l => { l with is_active := false })) s).links :=
      List.mem_of_find?_eq_some hfind
    have hlpred : (link2.person_id == pid &&
        link2.workspace_name == ws) = true :=
      List.find?_some (p := fun (l : WorkspaceLink) =>
        l.person_id == pid && l.workspace_name == ws) hfind
    have hlpid : link2.person_id = pid := by
      rw [Bool.and_eq_true] at hlpred
      exact eq_of_beq hlpred.1
    have hnd1 : (((WorkspaceLinksRepo.get_by_person s pid).foldl
        (fun acc link => links_update_by_id acc link.id
          (fun l => { l with is_active := false })) s).links.map
        (fun l => l.id)).Nodup := by
      rw [hids]
      exact hnd
    intro q
    unfold links_update_by_id
    dsimp only
    rw [List.countP_map]
    by_cases hq : pid = q
    · subst hq
      have hb : ((WorkspaceLinksRepo.get_by_person s pid).foldl
          (fun acc link => links_update_by_id acc link.id
            (fun l => { l with is_active := false })) s).links.countP
          ((fun l => l.person_id == pid && l.is_active) ∘ fun l =>
            if l.id == link2.id
            then { l with is_active := true, updated_at := some now }
            else l) ≤
          ((WorkspaceLinksRepo.get_by_person s pid).foldl
            (fun acc link => links_update_by_id acc link.id
              (fun l => { l with is_active := false })) s).links.countP
          (fun l => l.id == link2.id) := by
        apply List.countP_mono_left
        intro x hx hpx
        rw [Function.comp_apply] at hpx
        by_cases hid : (x.id == link2.id) = true
        · exact hid
        · rw [if_neg hid] at hpx
          exact absurd hpx (List.countP_eq_zero.mp hzero x hx)
      exact le_trans hb (countP_id_le_one hnd1 link2.id)
    · have hcongr : ((WorkspaceLinksRepo.get_by_person s pid).foldl
          (fun acc link => links_update_by_id acc link.id
            (fun l => { l with is_active := false })) s).links.countP
          ((fun l => l.person_id == q && l.is_active) ∘ fun l =>
            if l.id == link2.id
            then { l with is_active := true, updated_at := some now }
            else l) =
          ((WorkspaceLinksRepo.get_by_person s pid).foldl
            (fun acc link => links_update_by_id acc link.id
              (fun l => { l with is_active := false })) s).links.countP
          (fun l => l.person_id == q && l.is_active) := by
        apply List.countP_congr
        intro x hx
        rw [Function.comp_apply]
        by_cases hid : (x.id == link2.id) = true
        · have hxeq : x = link2 :=
            List.inj_on_of_nodup_map hnd1 hx hlmem (eq_of_beq hid)
          subst hxeq
          rw [if_pos hid]
          have hfq : (x.person_id == q) = false := by
            rw [hlpid]
            exact beq_eq_false_iff_ne.mpr hq
          show ((x.person_id == q && true) = true) ↔ _
          rw [hfq]
          simp
        · rw [if_neg hid]
      exact le_trans (le_of_eq hcongr) (le_trans (hmono q) (h q))

/-- WorkspaceLinksRepo::get_by_workspace: the is_linked rows of a workspace,
ordered by created_at descending. -/
def WorkspaceLinksRepo.get_by_workspace (s : DbState)
    (workspace_name : String) : List WorkspaceLink :=
  (s.links.filter (fun l =>
    l.workspace_name == workspace_name && l.is_linked)).mergeSort
    (fun a b => b.created_at ≤ a.created_at)

/-- Every is_linked row carries a slack member id: true of all states the
repository writes produce, since link_workspace sets both together and
unlink_workspace clears both together. -/
def linked_have_member (links : List WorkspaceLink) : Prop :=
  ∀ l ∈ links, l.is_linked = true → l.slack_member_id ≠ none

/-- The rows the sync pass iterates all carry a member id, assuming the
store invariant. -/
lemma get_by_workspace_members (s : DbState) (ws : String)
    (h : linked_have_member s.links) :
    ∀ l ∈ WorkspaceLinksRepo.get_by_workspace s ws,
      l.slack_member_id ≠ none := by
  intro l hl
  unfold WorkspaceLinksRepo.get_by_workspace at hl
  rw [List.mem_mergeSort, List.mem_filter, Bool.and_eq_true] at hl
  exact h l hl.1 hl.2.2

/-- Every write of the workspace-links repository preserves the
linked-rows-carry-a-member-id invariant. -/
lemma linked_have_member_preserved :
    (∀ (s : DbState) (pid : Nat) (ws : String) (now : Nat),
      linked_have_member s.links →
      linked_have_member (WorkspaceLinksRepo.create s pid ws now).2.links)
    ∧ (∀ (s : DbState) (pid : Nat) (ws mid : String) (now : Nat),
      linked_have_member s.links →
      linked_have_member
        (WorkspaceLinksRepo.link_workspace s pid ws mid now).links)
    ∧ (∀ (s : DbState) (pid : Nat) (ws : String) (now : Nat),
      linked_have_member s.links →
      linked_have_member
        (WorkspaceLinksRepo.unlink_workspace s pid ws now).links)
    ∧ (∀ (s : DbState) (pid : Nat) (ws : String) (now : Nat),
      linked_have_member s.links →
      linked_have_member
        (WorkspaceLinksRepo.set_active_workspace s pid ws now).links)
    ∧ (∀ (s : DbState) (lid : Nat),
      linked_have_member s.links →
      linked_have_member (WorkspaceLinksRepo.delete s lid).links) := by
  refine ⟨?_, ?_, ?_, ?_, ?_⟩
  · intro s pid ws now h l hl hlk
    unfold WorkspaceLinksRepo.create at hl
    dsimp only at hl
    rw [List.mem_append] at hl
    rcases hl with hl | hl
    · exact h l hl hlk
    · rw [List.mem_singleton] at hl
      subst hl
      exact absurd hlk (by simp)
  · intro s pid ws mid now h
    unfold WorkspaceLinksRepo.link_workspace
    cases WorkspaceLinksRepo.get_by_person_and_workspace s pid ws with
    | some link =>
      dsimp only
      intro l hl hlk
      unfold links_update_by_id at hl
      dsimp only at hl
      obtain ⟨l0, hl0, rfl⟩ := List.mem_map.mp hl
      by_cases hid : (l0.id == link.id) = true
      · rw [if_pos hid]
        simp
      · rw [if_neg hid] at hlk ⊢
        exact h l0 hl0 hlk
    | none =>
      dsimp only
      intro l hl hlk
      rw [List.mem_append] at hl
      rcases hl with hl | hl
      · exact h l hl hlk
      · rw [List.mem_singleton] at hl
        subst hl
        simp
  · intro s pid ws now h
    unfold WorkspaceLinksRepo.unlink_workspace
    cases WorkspaceLinksRepo.get_by_person_and_workspace s pid ws with
    | none => exact h
    | some link =>
      dsimp only
      intro l hl hlk
      unfold links_update_by_id at hl
      dsimp only at hl
      obtain ⟨l0, hl0, rfl⟩ := List.mem_map.mp hl
      by_cases hid : (l0.id == link.id) = true
      · rw [if_pos hid] at hlk
        exact absurd hlk (by simp)
      · rw [if_neg hid] at hlk ⊢
        exact h l0 hl0 hlk
  · intro s pid ws now h
    unfold WorkspaceLinksRepo.set_active_workspace
    dsimp only
    obtain ⟨G, hG1, hGid, hGpid, hGws, hGact, hGmid, hGlk⟩ :=
      deactivate_fold_links (WorkspaceLinksRepo.get_by_person s pid) s
    have hs1 : linked_have_member
        ((WorkspaceLinksRepo.get_by_person s pid).foldl
          (fun acc link => links_update_by_id acc link.id
            (fun l => { l with is_active := false })) s).links := by
      intro l hl hlk
      rw [hG1] at hl
      obtain ⟨l0, hl0, rfl⟩ := List.mem_map.mp hl
      rw [hGmid l0]
      rw [hGlk l0] at hlk
      exact h l0 hl0 hlk
    cases WorkspaceLinksRepo.get_by_person_and_workspace
        ((WorkspaceLinksRepo.get_by_person s pid).foldl
          (fun acc link => links_update_by_id acc link.id
            (fun l => { l with is_active := false })) s) pid ws with
    | none => exact hs1
    | some link =>
      dsimp only
      intro l hl hlk
      unfold links_update_by_id at hl
      dsimp only at hl
      obtain ⟨l0, hl0, rfl⟩ := List.mem_map.mp hl
      by_cases hid : (l0.id == link.id) = true
      · rw [if_pos hid] at hlk ⊢
        exact hs1 l0 hl0 hlk
      · rw [if_neg hid] at hlk ⊢
        exact hs1 l0 hl0 hlk
  · intro s lid h l hl hlk
    unfold WorkspaceLinksRepo.delete at hl
    dsimp only at hl
    exact h l (List.mem_of_mem_filter hl) hlk

/-- C9: every WorkspaceLink write operation — create, link_workspace,
unlink_workspace, set_active_workspace (given primary-key uniqueness) and
delete — preserves that each person has at most one is_active link. -/
theorem C9_single_active_link :
    (∀ (s : DbState) (pid : Nat) (ws : String) (now : Nat),
      at_most_one_active s.links →
      at_most_one_active (WorkspaceLinksRepo.create s pid ws now).2.links)
    ∧ (∀ (s : DbState) (pid : Nat) (ws mid : String) (now : Nat),
      at_most_one_active s.links →
      at_most_one_active
        (WorkspaceLinksRepo.link_workspace s pid ws mid now).links)
    ∧ (∀ (s : DbState) (pid : Nat) (ws : String) (now : Nat),
      at_most_one_active s.links →
      at_most_one_active
        (WorkspaceLinksRepo.unlink_workspace s pid ws now).links)
    ∧ (∀ (s : DbState) (pid : Nat) (ws : String) (now : Nat),
      (s.links.map (fun l => l.id)).Nodup →
      at_most_one_active s.links →
      at_most_one_active
        (WorkspaceLinksRepo.set_active_workspace s pid ws now).links)
    ∧ (∀ (s : DbState) (lid : Nat),
      at_most_one_active s.links →
      at_most_one_active (WorkspaceLinksRepo.delete s lid).links) := by
  refine ⟨create_preserves_active, link_workspace_preserves_active, ?_,
    set_active_preserves_active, delete_preserves_active⟩
  intro s pid ws now h
  unfold WorkspaceLinksRepo.unlink_workspace
  cases WorkspaceLinksRepo.get_by_person_and_workspace s pid ws with
  | none => exact h
  | some link =>
    dsimp only
    exact links_update_preserves_active s link.id _ (fun l => rfl)
      (fun l => rfl) h

/-- A second link of person 1, inactive and unlinked. -/
def sample_link2 : WorkspaceLink :=
  ⟨11, 1, "globex", none, false, false, 1, none⟩

/-- A store with two links for the invariant witness. -/
def sample_links_state : DbState :=
  ⟨[sample_person], [sample_link, sample_link2], [], [], 40⟩

/-- Witness for C9 at a concrete store: set_active_workspace applied to the
two-link person keeps the at-most-one-active invariant. -/
theorem C9_single_active_link_witness :
    at_most_one_active
      (WorkspaceLinksRepo.set_active_workspace sample_links_state 1 "globex"
        5).links
    ∧ at_most_one_active
      (WorkspaceLinksRepo.link_workspace sample_links_state 2 "acme" "U_B"
        5).links :=
  ⟨C9_single_active_link.2.2.2.1 sample_links_state 1 "globex" 5 (by decide)
    (at_most_one_active_of_mem sample_links_state.links (by decide)),
   C9_single_active_link.2.1 sample_links_state 2 "acme" "U_B" 5
    (at_most_one_active_of_mem sample_links_state.links (by decide))⟩

end Slacker

